import Mathlib

/-!
Shallow embedding of the effect-runtime core of the repository
(`src/source/runtime.cpp`) together with proofs about its behaviour.

Conventions used throughout this development:
* machine integers are modelled as `Nat` (values copied around here are only
  ever moved, never overflowed);
* the raw uniform-value storage buffer is modelled at 4-byte-cell granularity:
  one cell = 4 bytes, so a byte offset `o` in the source appears as the cell
  offset `o / 4` here (all offsets and sizes handled by the copies below are
  multiples of 4, enforced by the asserts in the source);
* the GPU device is not modelled; functions that call into it either record a
  trace of calls (`DeviceCall`) or take the success of a creation call as an
  oracle parameter (`texOk`, `effOk`).
-/

namespace Reshade

/-! ## Worker-thread split in `load_effects` (runtime.cpp:839-852) -/

/-- Number of worker threads spawned by `load_effects`
(`runtime.cpp:841`): `min(file_count, max(hardware_concurrency, 2) - 1)`. -/
def num_splits (file_count hardware_concurrency : Nat) : Nat :=
  min file_count (max hardware_concurrency 2 - 1)

/-- Whether worker thread `n` processes file index `i`
(`runtime.cpp:848-850`): the loop body runs when `i * num_splits / file_count == n`. -/
def worker_owns (file_count splits n i : Nat) : Bool :=
  i * splits / file_count == n

/-! ## Preprocessing / cache decision in `load_effect` (runtime.cpp:462-534) -/

/-- Front part of `load_effect` (`runtime.cpp:462-534`): decides whether the
preprocessor runs and what source text is used afterwards.  Returns
`(preprocessor_invoked, source, source_cached)`.  `cache_lookup` is the result
of `load_effect_cache` (`none` when it returned `false`), `pp_output` the text
the preprocessor would produce.  The source evaluates
`preprocess_required || (source_cached = load_effect_cache(...)) == false`
with short-circuiting, so the cache is only consulted when no forced
reprocessing was requested. -/
def load_effect_source (preprocessed preprocess_required : Bool)
    (cache_lookup : Option String) (pp_output : String) :
    Bool × String × Bool :=
  if preprocessed then
    (false, "", false)
  else if preprocess_required then
    (true, pp_output, false)
  else
    match cache_lookup with
    | some cached => (false, cached, true)
    | none => (true, pp_output, false)

/-! ## Effects, techniques and the technique enable/disable operations
(runtime.cpp:2575-2606) -/

/-- One texture-semantic descriptor binding recorded by an effect
(used by `update_texture_bindings`, `runtime.cpp:1654-1667`). -/
structure TexBinding where
  semantic : String
  set : Nat
  index : Nat
  sampler : Nat
deriving Repr, DecidableEq

/-- The per-effect record (the fields of `struct effect` that the modelled
operations read or write). -/
structure Effect where
  compiled : Bool
  errors : List String
  rendering : Nat
  texture_semantic_to_binding : List TexBinding
deriving Repr, DecidableEq

instance : Inhabited Effect := ⟨⟨false, [], 0, []⟩⟩

/-- The per-technique record (the fields of `struct technique` that the
modelled operations read or write).  `passes_data` entries are abstract since
no modelled operation inspects them; `annot_timeout` is the value of the
technique's `timeout` annotation. -/
structure Technique where
  effect_index : Nat
  enabled : Bool
  time_left : Nat
  annot_timeout : Nat
  passes_data : List Unit
  average_cpu_duration : Nat
  average_gpu_duration : Nat
deriving Repr, DecidableEq

instance : Inhabited Technique := ⟨⟨0, false, 0, 0, [], 0, 0⟩⟩

/-- Models `reshade::runtime::enable_technique` (`runtime.cpp:2575-2593`).
Takes and returns the effect list, the compile queue and the technique. -/
def enable_technique (effects : List Effect) (queue : List Nat)
    (tech : Technique) : List Effect × List Nat × Technique :=
  if !(effects.getD tech.effect_index default).compiled then
    (effects, queue, tech)
  else
    let status_changed := !tech.enabled
    let tech := { tech with enabled := true, time_left := tech.annot_timeout }
    let queue :=
      if tech.passes_data.isEmpty && !queue.contains tech.effect_index then
        queue ++ [tech.effect_index]
      else queue
    let effects :=
      if status_changed then
        effects.set tech.effect_index
          { effects.getD tech.effect_index default with
            rendering := (effects.getD tech.effect_index default).rendering + 1 }
      else effects
    (effects, queue, tech)

/-- Models `reshade::runtime::disable_technique` (`runtime.cpp:2594-2606`). -/
def disable_technique (effects : List Effect) (tech : Technique) :
    List Effect × Technique :=
  let status_changed := tech.enabled
  let tech := { tech with
    enabled := false, time_left := 0,
    average_cpu_duration := 0, average_gpu_duration := 0 }
  let effects :=
    if status_changed then
      effects.set tech.effect_index
        { effects.getD tech.effect_index default with
          rendering := (effects.getD tech.effect_index default).rendering - 1 }
    else effects
  (effects, tech)

/-! ## The texture registry: sharing on load (runtime.cpp:678-778) and
destruction on unload (runtime.cpp:1726-1747) -/

/-- The per-texture record (the fields of `struct texture` the modelled
operations read or write).  `pooled` is the value of the `pooled` annotation,
`source_annot` the value of the `source` annotation; `resource` is whether the
GPU resource handle is non-null. -/
structure Texture where
  unique_name : String
  semantic : String
  effect_index : Nat
  width : Nat
  height : Nat
  levels : Nat
  format : Nat
  pooled : Bool
  source_annot : String
  render_target : Bool
  storage_access : Bool
  shared : List Nat
  resource : Bool
deriving Repr, DecidableEq

/-- Modelled from the spec: `texture::matches_description` is declared in a
header outside `src/`; per the spec a mismatch in "dimensions/format" is what
it detects, so it compares the declared width/height/levels/format. -/
def matches_description (existing decl : Texture) : Bool :=
  existing.width == decl.width && existing.height == decl.height &&
    existing.levels == decl.levels && existing.format == decl.format

/-- One sampler reflected in an effect module (the fields read by the
shared-texture sRGB warning, `runtime.cpp:712-718`). -/
structure SamplerInfo where
  unique_name : String
  texture_name : String
  srgb : Bool
deriving Repr, DecidableEq

/-- Replace the first list entry satisfying `p` (the element the
`std::find_if` iterator points at) using `f`. -/
def updateFirst (p : Texture → Bool) (f : Texture → Texture) :
    List Texture → List Texture
  | [] => []
  | t :: ts => if p t then f t :: ts else t :: updateFirst p f ts

/-- The in-place mutation applied to an existing texture that a newly loaded
effect shares (`runtime.cpp:721-726` and `runtime.cpp:762-766`): append the
loading effect's index to the shared list unless already present, and force
the render-target and storage-access flags. -/
def share_with (effect_index : Nat) (t : Texture) : Texture :=
  { t with
    shared := if t.shared.contains effect_index then t.shared
              else t.shared ++ [effect_index]
    render_target := true
    storage_access := true }

/-- Result of processing one texture declaration in the merge loop of
`load_effect`: `halted` models the `break` after a semantic mismatch (the
effect's `compiled` flag is cleared and the remaining declarations are not
processed), `stepped` the `continue` paths. -/
inductive MergeStep where
  | halted (textures : List Texture) (errors : List String)
  | stepped (textures : List Texture) (errors : List String)
deriving Repr, DecidableEq

/-- Processing of one texture declaration `decl` of the effect at
`effect_index` against the texture registry `ts` (`runtime.cpp:678-777`).
`fnames` maps an effect index to its source file name (used in messages),
`samplers` is the loading effect's reflected sampler list and
`color_bit_depth` the runtime's back-buffer bit depth.  The rewriting of
texture references inside the new effect's module on the pooled path
(`runtime.cpp:737-760`) only renames references in the module and does not
affect the texture registry, so it is not modelled here. -/
def merge_texture (fnames : Nat → String) (samplers : List SamplerInfo)
    (color_bit_depth : Nat) (effect_index : Nat) (errs : List String)
    (ts : List Texture) (decl : Texture) : MergeStep :=
  let tex := { decl with effect_index := effect_index }
  match ts.find? (fun item => item.unique_name == tex.unique_name) with
  | some existing =>
      if tex.semantic ≠ existing.semantic then
        .halted ts (errs ++ ["error: " ++ tex.unique_name ++ ": another effect ("
          ++ fnames existing.effect_index
          ++ ") already created a texture with the same name but different semantic"])
      else
        let w1 :=
          if tex.semantic = "" && !matches_description existing tex then
            ["warning: " ++ tex.unique_name ++ ": another effect ("
              ++ fnames existing.effect_index
              ++ ") already created a texture with the same name but different dimensions"]
          else []
        let w2 :=
          if tex.semantic = "" &&
              existing.source_annot != tex.source_annot then
            ["warning: " ++ tex.unique_name ++ ": another effect ("
              ++ fnames existing.effect_index
              ++ ") already created a texture with a different image file"]
          else []
        let w3 :=
          if existing.semantic = "COLOR" && color_bit_depth != 8 then
            (samplers.filter (fun s =>
              s.srgb && s.texture_name == tex.unique_name)).map (fun s =>
                "warning: " ++ s.unique_name
                  ++ ": texture does not support sRGB sampling (back buffer format is not RGBA8)")
          else []
        .stepped
          (updateFirst (fun item => item.unique_name == tex.unique_name)
            (share_with effect_index) ts)
          (errs ++ w1 ++ w2 ++ w3)
  | none =>
      if tex.pooled && tex.semantic = "" &&
          (ts.find? (fun item => item.pooled &&
            item.effect_index != tex.effect_index &&
            matches_description item tex)).isSome then
        .stepped
          (updateFirst (fun item => item.pooled &&
              item.effect_index != tex.effect_index &&
              matches_description item tex)
            (share_with effect_index) ts)
          errs
      else
        let w :=
          if tex.semantic ≠ "" && tex.semantic ≠ "COLOR" &&
              tex.semantic ≠ "DEPTH" then
            ["warning: " ++ tex.unique_name ++ ": unknown semantic "
              ++ tex.semantic]
          else []
        .stepped (ts ++ [{ tex with shared := tex.shared ++ [effect_index] }])
          (errs ++ w)

/-- The whole texture merge loop of `load_effect` (`runtime.cpp:678-778`):
left-to-right over the module's texture declarations, stopping early (with
`compiled := false`) when a semantic mismatch halts the loop.  Returns the new
registry, the effect's error lines and its `compiled` flag. -/
def merge_textures (fnames : Nat → String) (samplers : List SamplerInfo)
    (color_bit_depth : Nat) (effect_index : Nat) :
    List Texture → List Texture → List String → Bool →
      List Texture × List String × Bool
  | [], ts, errs, compiled => (ts, errs, compiled)
  | decl :: decls, ts, errs, compiled =>
      match merge_texture fnames samplers color_bit_depth effect_index errs
          ts decl with
      | .halted ts' errs' => (ts', errs', false)
      | .stepped ts' errs' =>
          merge_textures fnames samplers color_bit_depth effect_index decls
            ts' errs' compiled

/-- Models `reshade::runtime::destroy_texture` (`runtime.cpp:1808-1829`), projected
onto the modelled fields: the GPU resource (and views) are released. -/
def destroy_texture (t : Texture) : Texture :=
  { t with resource := false }

/-- The texture-destruction part of `reshade::runtime::unload_effect`
(`runtime.cpp:1730-1738`): remove `effect_index` from every texture's shared
list; a texture whose shared list becomes empty is destroyed and removed from
the registry.  Returns the remaining registry and the destroyed textures. -/
def unload_textures (effect_index : Nat) :
    List Texture → List Texture × List Texture
  | [] => ([], [])
  | t :: ts =>
      let t' := { t with shared := t.shared.filter (fun i => i != effect_index) }
      let rest := unload_textures effect_index ts
      if t'.shared.isEmpty then (rest.1, destroy_texture t' :: rest.2)
      else (t' :: rest.1, rest.2)

/-! ## `update_texture_bindings` (runtime.cpp:1639-1671) -/

/-- The descriptor type chosen for a semantic-texture descriptor update
(`runtime.cpp:1664`). -/
inductive DescType where
  | sampler_with_resource_view
  | shader_resource_view
deriving Repr, DecidableEq

/-- One entry of the `updates` vector passed to `update_descriptor_sets`
(`runtime.cpp:1661-1666`). -/
structure DescriptorUpdate where
  set : Nat
  binding : Nat
  typ : DescType
  sampler : Nat
  view : Nat
deriving Repr, DecidableEq

/-- Calls `update_texture_bindings` makes on the device abstraction. -/
inductive DeviceCall where
  | wait_idle
  | update_descriptor_sets (updates : List DescriptorUpdate)
deriving Repr, DecidableEq

/-- The update built for one recorded binding (`runtime.cpp:1661-1666`). -/
def make_binding_update (b : TexBinding) (srv : Nat) : DescriptorUpdate :=
  { set := b.set
    binding := b.index
    typ := if b.sampler != 0 then .sampler_with_resource_view
           else .shader_resource_view
    sampler := b.sampler
    view := srv }

/-- Overwrite-or-insert into the `_texture_semantic_bindings` map
(`runtime.cpp:1642`, `std::map::operator[]`). -/
def map_set : List (String × Nat) → String → Nat → List (String × Nat)
  | [], k, v => [(k, v)]
  | (k', v') :: rest, k, v =>
      if k' = k then (k', v) :: rest else (k', v') :: map_set rest k v

/-- Models `reshade::runtime::update_texture_bindings` (`runtime.cpp:1639-1671`).
Returns the new `_texture_semantic_bindings` map and the trace of device
calls made, in order.  The `updates` vector is accumulated exactly as the
nested loops do (`emplace_back` per matching binding). -/
def update_texture_bindings (effects : List Effect)
    (bindings_map : List (String × Nat)) (semantic : String) (srv : Nat) :
    List (String × Nat) × List DeviceCall :=
  let bindings_map :=
    if srv != 0 then map_set bindings_map semantic srv
    else bindings_map.filter (fun kv => kv.1 != semantic)
  let updates := effects.foldl (fun acc e =>
    e.texture_semantic_to_binding.foldl (fun acc b =>
      if b.semantic = semantic then acc ++ [make_binding_update b srv]
      else acc) acc) []
  (bindings_map, [.wait_idle, .update_descriptor_sets updates])

/-! ## GPU-object initialization of one queued effect
(`update_and_render_effects`, runtime.cpp:2017-2107) -/

instance : Inhabited Texture := ⟨⟨"", "", 0, 0, 0, 0, 0, false, "", false, false, [], false⟩⟩

/-- The texture-creation loop (`runtime.cpp:2025-2038`): walk the registry,
skip textures that already have a resource and those that neither belong to
the queued effect nor are shared; create the rest (`init_texture` success is
the oracle `texOk`); on the first failure stop (`break`), reporting the
failing texture's name. -/
def create_effect_textures (texOk : Texture → Bool) (effect_index : Nat) :
    List Texture → List Texture × Option String
  | [] => ([], none)
  | t :: ts =>
      if t.resource || (t.effect_index != effect_index && t.shared.length ≤ 1) then
        let rest := create_effect_textures texOk effect_index ts
        (t :: rest.1, rest.2)
      else if texOk t then
        let rest := create_effect_textures texOk effect_index ts
        ({ t with resource := true } :: rest.1, rest.2)
      else
        (t :: ts, some t.unique_name)

/-- Models `cur_line.find("X3579") != npos`. -/
def contains_x3579 (s : String) : Bool :=
  (s.splitOn "X3579").length != 1

/-- The error-line cleanup after `init_effect` (`runtime.cpp:2044-2067`):
scanning from the front, a line equal to its successor swallows the successor
(and is re-examined), a line containing `X3579` is dropped (and the next line
re-examined at the same position), anything else is kept. -/
def dedup_error_lines : List String → List String
  | [] => []
  | [a] => if contains_x3579 a then [] else [a]
  | a :: b :: rest =>
      if a == b then dedup_error_lines (a :: rest)
      else if contains_x3579 a then dedup_error_lines (b :: rest)
      else a :: dedup_error_lines (b :: rest)
termination_by l => l.length

/-- Models `runtime.cpp:2080-2083`: disable every technique belonging to the failed
effect (threading the effect list through the rendering-count updates of
`disable_technique`). -/
def disable_techniques (effect_index : Nat) :
    List Effect → List Technique → List Effect × List Technique
  | effects, [] => (effects, [])
  | effects, t :: ts =>
      if t.effect_index == effect_index then
        let r1 := disable_technique effects t
        let rest := disable_techniques effect_index r1.1 ts
        (rest.1, r1.2 :: rest.2)
      else
        let rest := disable_techniques effect_index effects ts
        (rest.1, t :: rest.2)

/-- Models `runtime.cpp:2076-2079`: destroy the failed effect's unshared textures
(in place; they stay in the registry with null handles). -/
def destroy_effect_textures (effect_index : Nat) (ts : List Texture) :
    List Texture :=
  ts.map (fun t =>
    if t.effect_index == effect_index && t.shared.length ≤ 1 then
      destroy_texture t
    else t)

/-- The runtime state read and written by the compile-queue branch of
`update_and_render_effects`. -/
structure RState where
  effects : List Effect
  textures : List Texture
  techniques : List Technique
  compile_queue : List Nat
  last_reload_successfull : Bool
  textures_loaded : Bool
deriving Repr, DecidableEq

/-- The compile-queue branch of `update_and_render_effects`
(`runtime.cpp:2017-2107`): pop the back of the queue, create that effect's
textures (aborting on the first failure), run `init_effect` (success oracle
`effOk`) if still compiled, clean up the error lines, and on failure destroy
the effect's unshared textures and disable its techniques. -/
def update_compile_queue_step (texOk : Texture → Bool) (effOk : Nat → Bool)
    (s : RState) : RState :=
  match s.compile_queue.getLast? with
  | none => s
  | some effect_index =>
      let queue := s.compile_queue.dropLast
      let created := create_effect_textures texOk effect_index s.textures
      let eff := s.effects.getD effect_index default
      let errors1 := match created.2 with
        | some name => eff.errors ++ ["Failed to create texture " ++ name]
        | none => eff.errors
      let compiled1 := match created.2 with
        | some _ => false
        | none => eff.compiled
      let compiled2 := if compiled1 then effOk effect_index else compiled1
      let errors2 := dedup_error_lines errors1
      let effects := s.effects.set effect_index
        { eff with compiled := compiled2, errors := errors2 }
      if compiled2 then
        { s with
          effects := effects
          textures := created.1
          compile_queue := queue
          textures_loaded := false }
      else
        let dis := disable_techniques effect_index effects s.techniques
        { effects := dis.1,
          textures := destroy_effect_textures effect_index created.1,
          techniques := dis.2,
          compile_queue := queue,
          last_reload_successfull := false,
          textures_loaded := false }

/-! ## Uniform value storage: `get_uniform_value` / `set_uniform_value`
(runtime.cpp:3063-3259).  The storage buffer and the caller's value array are
both modelled as functions from 4-byte-cell index to the cell's 32-bit
contents (as a `Nat`); a byte offset `o` of the source is the cell offset
`o / 4` here. -/

/-- Point update of a cell buffer (one 4-byte `memcpy`). -/
def upd (s : Nat → Nat) (k v : Nat) : Nat → Nat :=
  fun i => if i = k then v else s i

/-- The index triples `(a - base, row, col)` visited by the matrix copy loops
(`runtime.cpp:3086-3092` and `runtime.cpp:3174-3180`), in loop order. -/
def mTriples (n rows cols : Nat) : List (Nat × Nat × Nat) :=
  (List.range n).flatMap fun a =>
    (List.range rows).flatMap fun r =>
      (List.range cols).map fun c => (a, r, c)

/-- The index pairs `(a - base, row)` visited by the array-element copy loops
(`runtime.cpp:3096-3101` and `runtime.cpp:3184-3189`), in loop order. -/
def mPairs (n rows : Nat) : List (Nat × Nat) :=
  (List.range n).flatMap fun a =>
    (List.range rows).map fun r => (a, r)

/-- The matrix branch of `set_uniform_value` (`runtime.cpp:3172-3181`): for
`a` from `base` to `a_len`, row-major over `rows × cols`, copy one cell from
`data` to the storage, stopping after `size4` cells (the running counter `i`);
each matrix row starts at a 4-cell (16-byte) boundary of the storage. -/
def set_uniform_value_matrix (off rows cols a_len base size4 : Nat)
    (data st : Nat → Nat) : Nat → Nat :=
  ((mTriples (a_len - base) rows cols).take size4).foldl
    (fun s t => upd s (off + (base + t.1) * (rows * 4) + t.2.1 * 4 + t.2.2)
      (data (t.1 * (rows * cols) + t.2.1 * cols + t.2.2))) st

/-- The matrix branch of `get_uniform_value` (`runtime.cpp:3084-3093`):
the mirror image of the matrix set, copying from the storage into the
caller's array `out`. -/
def get_uniform_value_matrix (off rows cols a_len base size4 : Nat)
    (st out : Nat → Nat) : Nat → Nat :=
  ((mTriples (a_len - base) rows cols).take size4).foldl
    (fun o t => upd o (t.1 * (rows * cols) + t.2.1 * cols + t.2.2)
      (st (off + (base + t.1) * (rows * 4) + t.2.1 * 4 + t.2.2))) out

/-- The array branch of `set_uniform_value` (`runtime.cpp:3182-3190`): each
array element is 4-cell (16-byte) aligned in the storage. -/
def set_uniform_value_array (off rows comps a_len base size4 : Nat)
    (data st : Nat → Nat) : Nat → Nat :=
  ((mPairs (a_len - base) rows).take size4).foldl
    (fun s t => upd s (off + (base + t.1) * 4 + t.2)
      (data (t.1 * comps + t.2))) st

/-- The array branch of `get_uniform_value` (`runtime.cpp:3094-3102`). -/
def get_uniform_value_array (off rows comps a_len base size4 : Nat)
    (st out : Nat → Nat) : Nat → Nat :=
  ((mPairs (a_len - base) rows).take size4).foldl
    (fun o t => upd o (t.1 * comps + t.2)
      (st (off + (base + t.1) * 4 + t.2))) out

/-- The plain branch of `set_uniform_value` (`runtime.cpp:3191-3194`): one
contiguous copy of `size4` cells. -/
def set_uniform_value_scalar (off size4 : Nat) (data st : Nat → Nat) :
    Nat → Nat :=
  (List.range size4).foldl (fun s jdx => upd s (off + jdx) (data jdx)) st

/-- The plain branch of `get_uniform_value` (`runtime.cpp:3103-3106`). -/
def get_uniform_value_scalar (off size4 : Nat) (st out : Nat → Nat) :
    Nat → Nat :=
  (List.range size4).foldl (fun o jdx => upd o jdx (st (off + jdx))) out

/-- The supported uniform base types. -/
inductive BaseType where
  | t_bool
  | t_int
  | t_uint
  | t_float
deriving Repr, DecidableEq

/-- The reflected type of a uniform variable (the fields of
`reshadefx::type` the modelled operations read).  `is_array` and `is_matrix`
are kept as reflected flags since `reshadefx` is not part of `src/`. -/
structure UniformType where
  base : BaseType
  rows : Nat
  cols : Nat
  array_length : Nat
  is_array : Bool
  is_matrix : Bool
deriving Repr, DecidableEq

/-- Modelled from the spec: `reshadefx::type::components()` is declared
outside `src/`; the spec's round-trip property fixes it as `rows * cols` (a
matrix with R rows and C columns holds R*C component values). -/
def UniformType.components (t : UniformType) : Nat := t.rows * t.cols

/-- Modelled from the spec: the supported base types are bool/int/uint/float;
only `float` is a floating-point type. -/
def UniformType.is_floating_point (t : UniformType) : Bool :=
  t.base == .t_float

/-- Modelled from the spec: `int` and `uint` are the integral base types. -/
def UniformType.is_integral (t : UniformType) : Bool :=
  t.base == .t_int || t.base == .t_uint

/-- Modelled from the spec: `int` is the signed integral base type. -/
def UniformType.is_signed (t : UniformType) : Bool :=
  t.base == .t_int

/-- Models `force_floating_point_value` (`runtime.cpp:3063-3070`). -/
def force_floating_point_value (t : UniformType) (renderer_id : Nat) : Bool :=
  if renderer_id == 0x9000 then true
  else if t.is_matrix && (renderer_id &&& 0x10000 != 0) then true
  else false

/-- One reflected uniform variable (the fields of `struct uniform` the
modelled operations read): its type, its cell offset into the owning effect's
uniform storage buffer and its total size in cells (`variable.size / 4`). -/
structure Uniform where
  type : UniformType
  offset : Nat
  size4 : Nat
deriving Repr, DecidableEq

/-- The untyped cell-level `set_uniform_value` (`runtime.cpp:3160-3195`):
clamps the requested size to the variable's size, bails out when the array
index is out of range (the source asserts and returns), then dispatches on
matrix / array / plain layout. -/
def set_uniform_value_cells (var : Uniform) (data : Nat → Nat)
    (size4 base_index : Nat) (st : Nat → Nat) : Nat → Nat :=
  let size4 := min size4 var.size4
  let a_len := if var.type.is_array then var.type.array_length else 1
  if base_index ≥ a_len then st
  else if var.type.is_matrix then
    set_uniform_value_matrix var.offset var.type.rows var.type.cols a_len
      base_index size4 data st
  else if 1 < a_len then
    set_uniform_value_array var.offset var.type.rows var.type.components a_len
      base_index size4 data st
  else
    set_uniform_value_scalar var.offset size4 data st

/-- The untyped cell-level `get_uniform_value` (`runtime.cpp:3072-3107`). -/
def get_uniform_value_cells (var : Uniform) (size4 base_index : Nat)
    (st out : Nat → Nat) : Nat → Nat :=
  let size4 := min size4 var.size4
  let a_len := if var.type.is_array then var.type.array_length else 1
  if base_index ≥ a_len then out
  else if var.type.is_matrix then
    get_uniform_value_matrix var.offset var.type.rows var.type.cols a_len
      base_index size4 st out
  else if 1 < a_len then
    get_uniform_value_array var.offset var.type.rows var.type.components a_len
      base_index size4 st out
  else
    get_uniform_value_scalar var.offset size4 st out

/-- Bit-level conversions between 32-bit floats and integers, used by the
typed accessors when the stored representation differs from the requested
type.  They are kept abstract (parameters of the theorems) since the claims
below only exercise matching representations. -/
structure FloatConv where
  of_int : Nat → Nat
  of_uint : Nat → Nat
  to_int : Nat → Nat
  to_uint : Nat → Nat

/-- Models `set_uniform_value(bool*)` (`runtime.cpp:3196-3214`): bools become
`1.0f`/`0.0f` (bit pattern `0x3F800000`/`0`) when the variable is stored as
floating point, else `1`/`0`. -/
def set_uniform_value_bool (rid : Nat) (var : Uniform) (values : List Bool)
    (count base_index : Nat) (st : Nat → Nat) : Nat → Nat :=
  if var.type.is_floating_point || force_floating_point_value var.type rid then
    set_uniform_value_cells var
      (fun i => if values.getD i false then 0x3F800000 else 0) count base_index st
  else
    set_uniform_value_cells var
      (fun i => if values.getD i false then 1 else 0) count base_index st

/-- Models `set_uniform_value(int32_t*)` (`runtime.cpp:3215-3229`). -/
def set_uniform_value_int (fc : FloatConv) (rid : Nat) (var : Uniform)
    (values : Nat → Nat) (count base_index : Nat) (st : Nat → Nat) : Nat → Nat :=
  if var.type.is_floating_point || force_floating_point_value var.type rid then
    set_uniform_value_cells var (fun i => fc.of_int (values i)) count base_index st
  else
    set_uniform_value_cells var values count base_index st

/-- Models `set_uniform_value(uint32_t*)` (`runtime.cpp:3230-3244`). -/
def set_uniform_value_uint (fc : FloatConv) (rid : Nat) (var : Uniform)
    (values : Nat → Nat) (count base_index : Nat) (st : Nat → Nat) : Nat → Nat :=
  if var.type.is_floating_point || force_floating_point_value var.type rid then
    set_uniform_value_cells var (fun i => fc.of_uint (values i)) count base_index st
  else
    set_uniform_value_cells var values count base_index st

/-- Models `set_uniform_value(float*)` (`runtime.cpp:3245-3259`). -/
def set_uniform_value_float (fc : FloatConv) (rid : Nat) (var : Uniform)
    (values : Nat → Nat) (count base_index : Nat) (st : Nat → Nat) : Nat → Nat :=
  if var.type.is_floating_point || force_floating_point_value var.type rid then
    set_uniform_value_cells var values count base_index st
  else
    set_uniform_value_cells var (fun i => fc.to_int (values i)) count base_index st

/-- Models `get_uniform_value(bool*)` (`runtime.cpp:3108-3118`): reads the variable's
whole value into a scratch buffer (initial contents `out0`, the `alloca`), then
returns `cell != 0` for the first `count` cells. -/
def get_uniform_value_bool (var : Uniform) (count base_index : Nat)
    (st out0 : Nat → Nat) : List Bool :=
  let count := min count var.size4
  let data := get_uniform_value_cells var var.size4 base_index st out0
  (List.range count).map (fun i => data i != 0)

/-- Models `get_uniform_value(int32_t*)` (`runtime.cpp:3119-3135`): direct cell read
when the variable is stored integrally, else a float-to-int conversion of the
whole value. -/
def get_uniform_value_int (fc : FloatConv) (rid : Nat) (var : Uniform)
    (count base_index : Nat) (st out0 : Nat → Nat) : Nat → Nat :=
  if var.type.is_integral && !force_floating_point_value var.type rid then
    get_uniform_value_cells var count base_index st out0
  else
    let count := min count var.size4
    let data := get_uniform_value_cells var var.size4 base_index st out0
    fun i => if i < count then fc.to_int (data i) else out0 i

/-- Models `get_uniform_value(uint32_t*)` (`runtime.cpp:3136-3139`) forwards to the
`int32_t` overload. -/
def get_uniform_value_uint (fc : FloatConv) (rid : Nat) (var : Uniform)
    (count base_index : Nat) (st out0 : Nat → Nat) : Nat → Nat :=
  get_uniform_value_int fc rid var count base_index st out0

/-- Models `get_uniform_value(float*)` (`runtime.cpp:3140-3158`). -/
def get_uniform_value_float (fc : FloatConv) (rid : Nat) (var : Uniform)
    (count base_index : Nat) (st out0 : Nat → Nat) : Nat → Nat :=
  if var.type.is_floating_point || force_floating_point_value var.type rid then
    get_uniform_value_cells var count base_index st out0
  else
    let count := min count var.size4
    let data := get_uniform_value_cells var var.size4 base_index st out0
    fun i => if i < count then
      (if var.type.is_signed then fc.of_int (data i) else fc.of_uint (data i))
    else out0 i

/-- A matrix uniform variable of base type `b` with `rows` rows, `cols`
columns and array length `a_len`, at cell offset `off`.  Its reflected size
follows the spec's alignment invariant (each of the `a_len * rows` matrix rows
is 4-cell / 16-byte aligned). -/
def matrixVar (b : BaseType) (off rows cols a_len : Nat) : Uniform :=
  { type := { base := b, rows := rows, cols := cols, array_length := a_len,
              is_array := decide (1 < a_len), is_matrix := true }
    offset := off
    size4 := a_len * (rows * 4) }

/-! ## `switch_to_next_preset` (runtime.cpp:2942-2995) -/

/-- The directory scan of `switch_to_next_preset` (`runtime.cpp:2951-2972`):
builds the list of candidate preset files and remembers the index of the
current preset if it is encountered.  `valid` is `resolve_preset_path`,
`is_current` the `std::filesystem::equivalent(..., _current_preset_path)`
test and `fmatch` the `filter_text.empty() || std::search(...) != end` test. -/
def preset_scan_step (valid is_current fmatch : String → Bool)
    (acc : List String × Option Nat) (p : String) : List String × Option Nat :=
  if !valid p then acc
  else if is_current p then (acc.1 ++ [p], some acc.1.length)
  else if fmatch p then (acc.1 ++ [p], acc.2)
  else acc

/-- The whole directory loop of `switch_to_next_preset`
(`runtime.cpp:2954-2972`). -/
def build_preset_list (entries : List String) (valid : String → Bool)
    (is_current : String → Bool) (fmatch : String → Bool) :
    List String × Option Nat :=
  entries.foldl (preset_scan_step valid is_current fmatch) ([], none)

/-- Models `reshade::runtime::switch_to_next_preset` (`runtime.cpp:2942-2995`).
Returns whether a preset was selected together with the new current preset
path (unchanged when `false` is returned). -/
def switch_to_next_preset (entries : List String) (valid : String → Bool)
    (is_current : String → Bool) (fmatch : String → Bool) (reversed : Bool)
    (current : String) : Bool × String :=
  let scan := build_preset_list entries valid is_current fmatch
  let preset_paths := scan.1
  if preset_paths.isEmpty then
    (false, current)
  else
    match scan.2 with
    | none =>
        (true, if reversed then preset_paths.getLastD current
               else preset_paths.headD current)
    | some k =>
        if reversed then
          (true, if k = 0 then preset_paths.getLastD current
                 else preset_paths.getD (k - 1) current)
        else
          (true, if k = preset_paths.length - 1 then preset_paths.headD current
                 else preset_paths.getD (k + 1) current)

end Reshade

namespace Reshade

/-! ## Claims C5, C6, C8, C10 -/

/-- C5 counterexample: with 3 effect files and hardware concurrency 3 the code
spawns `num_splits = 2` threads, and file index 1 satisfies the claimed
round-robin condition `1 % 2 == 1` for thread 1, yet the code assigns it to
thread 0 (`1 * 2 / 3 == 0`), so thread 1 does not own it. -/
theorem c5_round_robin_counterexample :
    num_splits 3 3 = 2 ∧ 1 % 2 = 1 ∧ worker_owns 3 2 1 1 = false := by
  decide

/-- C5 (amended): `load_effects` spawns exactly
`min(N, max(hardware_concurrency, 2) - 1)` worker threads, and each worker `n`
processes exactly the contiguous block of file indices `i` with
`i * num_splits / N == n` (not a round-robin subset); every file index is
still processed by exactly one thread. -/
theorem c5_worker_split (N hw : Nat) (hN : 0 < N) :
    num_splits N hw = min N (max hw 2 - 1) ∧
    (∀ i, i < N → ∃! n, n < num_splits N hw ∧
      worker_owns N (num_splits N hw) n i = true) := by
  constructor
  · rfl
  · intro i hi
    refine ⟨i * num_splits N hw / N, ⟨?_, ?_⟩, ?_⟩
    · have hs : 0 < num_splits N hw := by
        simp only [num_splits]
        omega
      exact Nat.div_lt_of_lt_mul (Nat.mul_lt_mul_of_pos_right hi hs)
    · simp [worker_owns]
    · intro n hn
      have h := hn.2
      simp only [worker_owns, beq_iff_eq] at h
      exact h.symm

/-- C5 witness: the amended statement at 3 files, hardware concurrency 3. -/
theorem c5_worker_split_witness :
    num_splits 3 3 = min 3 (max 3 2 - 1) ∧
    (∀ i, i < 3 → ∃! n, n < num_splits 3 3 ∧
      worker_owns 3 (num_splits 3 3) n i = true) :=
  c5_worker_split 3 3 (by decide)

/-- C6: if the effect is not yet preprocessed, forced reprocessing was not
requested, and the on-disk cache lookup succeeds, then the preprocessor is not
invoked and the cached source text is used (`runtime.cpp:462-534`). -/
theorem c6_cache_skips_preprocessing (cached pp_output : String) :
    load_effect_source false false (some cached) pp_output =
      (false, cached, true) := by
  rfl

/-- C8: `disable_technique` on an already-disabled technique leaves the effect
list (in particular the owning effect's rendering reference count) unchanged,
and applying `disable_technique` twice never decrements the count twice: the
second application leaves the effect list produced by the first unchanged. -/
theorem c8_disable_technique_idempotent (effects : List Effect)
    (tech : Technique) :
    (tech.enabled = false → (disable_technique effects tech).1 = effects) ∧
    (disable_technique (disable_technique effects tech).1
        (disable_technique effects tech).2).1 =
      (disable_technique effects tech).1 := by
  constructor
  · intro h
    simp [disable_technique, h]
  · simp [disable_technique]

/-- C8 witness: a concrete already-disabled technique. -/
theorem c8_disable_technique_idempotent_witness :
    ((⟨1, false, 0, 0, [], 0, 0⟩ : Technique).enabled = false →
      (disable_technique [default, ⟨true, [], 3, []⟩] ⟨1, false, 0, 0, [], 0, 0⟩).1 =
        [default, ⟨true, [], 3, []⟩]) ∧
    (disable_technique
        (disable_technique [default, ⟨true, [], 3, []⟩] ⟨1, false, 0, 0, [], 0, 0⟩).1
        (disable_technique [default, ⟨true, [], 3, []⟩] ⟨1, false, 0, 0, [], 0, 0⟩).2).1 =
      (disable_technique [default, ⟨true, [], 3, []⟩] ⟨1, false, 0, 0, [], 0, 0⟩).1 :=
  c8_disable_technique_idempotent [default, ⟨true, [], 3, []⟩] ⟨1, false, 0, 0, [], 0, 0⟩

/-- C10: `enable_technique` on a technique whose owning effect failed to
compile is a complete no-op (effect list, compile queue and technique are all
unchanged), and for techniques of compiled effects the owning effect index is
never enqueued twice: the number of occurrences of the index in the compile
queue never exceeds `max 1` of its previous count. -/
theorem c10_enable_technique_noop (effects : List Effect) (queue : List Nat)
    (tech : Technique) :
    ((effects.getD tech.effect_index default).compiled = false →
      enable_technique effects queue tech = (effects, queue, tech)) ∧
    (enable_technique effects queue tech).2.1.count tech.effect_index ≤
      max 1 (queue.count tech.effect_index) := by
  constructor
  · intro h
    simp only [enable_technique, h, Bool.not_false, if_true]
  · by_cases hc : (effects.getD tech.effect_index default).compiled = true
    · by_cases hq : (tech.passes_data.isEmpty && !queue.contains tech.effect_index) = true
      · have hcnt : queue.count tech.effect_index = 0 := by
          rw [Bool.and_eq_true, Bool.not_eq_true'] at hq
          exact List.count_eq_zero.mpr (by simpa using hq.2)
        simp only [enable_technique, hc, Bool.not_true, if_false, hq, if_true]
        simp [List.count_append, hcnt]
      · have hq' : (tech.passes_data.isEmpty && !queue.contains tech.effect_index) = false := by
          revert hq
          cases tech.passes_data.isEmpty && !queue.contains tech.effect_index <;> simp
        simp only [enable_technique, hc, Bool.not_true, if_false, hq', Bool.false_eq_true]
        exact le_max_right _ _
    · have hc' : (effects.getD tech.effect_index default).compiled = false := by
        revert hc
        cases (effects.getD tech.effect_index default).compiled <;> simp
      simp only [enable_technique, hc', Bool.not_false, if_true]
      exact le_max_right _ _

/-- The inner loop of `update_texture_bindings` accumulates exactly the
updates for the bindings whose semantic matches. -/
theorem foldl_binding_updates (semantic : String) (srv : Nat) :
    ∀ (bs : List TexBinding) (acc : List DescriptorUpdate),
      bs.foldl (fun acc b =>
          if b.semantic = semantic then acc ++ [make_binding_update b srv]
          else acc) acc =
        acc ++ (bs.filter (fun b => b.semantic == semantic)).map
          (fun b => make_binding_update b srv)
  | [], acc => by simp
  | b :: bs, acc => by
      by_cases h : b.semantic = semantic
      · simp [h, foldl_binding_updates semantic srv bs]
      · simp [h, foldl_binding_updates semantic srv bs]

/-- The outer loop of `update_texture_bindings` accumulates the matching
updates of every effect, in order. -/
theorem foldl_effect_updates (semantic : String) (srv : Nat) :
    ∀ (es : List Effect) (acc : List DescriptorUpdate),
      es.foldl (fun acc e =>
          e.texture_semantic_to_binding.foldl (fun acc b =>
            if b.semantic = semantic then acc ++ [make_binding_update b srv]
            else acc) acc) acc =
        acc ++ es.flatMap (fun e =>
          (e.texture_semantic_to_binding.filter
            (fun b => b.semantic == semantic)).map
            (fun b => make_binding_update b srv))
  | [], acc => by simp
  | e :: es, acc => by
      rw [List.foldl_cons, foldl_effect_updates semantic srv es]
      simp only [foldl_binding_updates semantic srv, List.flatMap_cons,
        List.append_assoc]

/-- C7: every call to `update_texture_bindings` produces the device-call trace
`[wait_idle, update_descriptor_sets us]` — the idle wait strictly precedes the
single descriptor update — and the submitted update list `us` contains an
update for every recorded binding in every effect whose semantic equals the
given semantic, and nothing else. -/
theorem c7_update_texture_bindings (effects : List Effect)
    (bindings_map : List (String × Nat)) (semantic : String) (srv : Nat) :
    ∃ us,
      (update_texture_bindings effects bindings_map semantic srv).2 =
        [DeviceCall.wait_idle, DeviceCall.update_descriptor_sets us] ∧
      (∀ e ∈ effects, ∀ b ∈ e.texture_semantic_to_binding,
        b.semantic = semantic → make_binding_update b srv ∈ us) ∧
      (∀ u ∈ us, ∃ e ∈ effects, ∃ b ∈ e.texture_semantic_to_binding,
        b.semantic = semantic ∧ u = make_binding_update b srv) := by
  refine ⟨effects.flatMap (fun e =>
    (e.texture_semantic_to_binding.filter
      (fun b => b.semantic == semantic)).map
      (fun b => make_binding_update b srv)), ?_, ?_, ?_⟩
  · simp only [update_texture_bindings]
    rw [foldl_effect_updates]
    simp
  · intro e he b hb hsem
    simp only [List.mem_flatMap]
    exact ⟨e, he, List.mem_map_of_mem _
      (List.mem_filter.mpr ⟨hb, by simp [hsem]⟩)⟩
  · intro u hu
    simp only [List.mem_flatMap] at hu
    obtain ⟨e, he, hu⟩ := hu
    obtain ⟨b, hb, rfl⟩ := List.mem_map.mp hu
    obtain ⟨hb1, hb2⟩ := List.mem_filter.mp hb
    exact ⟨e, he, b, hb1, by simpa using hb2, rfl⟩

/-- C7 witness: an effect with one matching and one non-matching binding. -/
theorem c7_update_texture_bindings_witness :
    ∃ us,
      (update_texture_bindings [⟨true, [], 0, [⟨"DEPTH", 1, 2, 3⟩, ⟨"COLOR", 4, 5, 0⟩]⟩]
          [] "DEPTH" 7).2 =
        [DeviceCall.wait_idle, DeviceCall.update_descriptor_sets us] ∧
      (∀ e ∈ [(⟨true, [], 0, [⟨"DEPTH", 1, 2, 3⟩, ⟨"COLOR", 4, 5, 0⟩]⟩ : Effect)],
        ∀ b ∈ e.texture_semantic_to_binding,
        b.semantic = "DEPTH" → make_binding_update b 7 ∈ us) ∧
      (∀ u ∈ us, ∃ e ∈ [(⟨true, [], 0, [⟨"DEPTH", 1, 2, 3⟩, ⟨"COLOR", 4, 5, 0⟩]⟩ : Effect)],
        ∃ b ∈ e.texture_semantic_to_binding,
        b.semantic = "DEPTH" ∧ u = make_binding_update b 7) :=
  c7_update_texture_bindings [⟨true, [], 0, [⟨"DEPTH", 1, 2, 3⟩, ⟨"COLOR", 4, 5, 0⟩]⟩]
    [] "DEPTH" 7

/-- One scan step preserves "the recorded current-preset index is in range of
the list built so far". -/
theorem preset_scan_step_index_lt (valid is_current fmatch : String → Bool)
    (acc : List String × Option Nat) (p : String)
    (h : ∀ k, acc.2 = some k → k < acc.1.length) :
    ∀ k, (preset_scan_step valid is_current fmatch acc p).2 = some k →
      k < (preset_scan_step valid is_current fmatch acc p).1.length := by
  intro k hk
  unfold preset_scan_step at hk ⊢
  by_cases hv : valid p = true
  · rw [hv] at hk ⊢
    by_cases hc : is_current p = true
    · rw [hc] at hk ⊢
      simp only [Bool.not_true, Bool.false_eq_true, if_false, if_true] at hk ⊢
      have hk2 : k = acc.1.length := by
        have : some acc.1.length = some k := hk
        exact (Option.some.injEq _ _ ▸ this).symm
      subst hk2
      simp
    · rw [Bool.not_eq_true] at hc
      rw [hc] at hk ⊢
      by_cases hf : fmatch p = true
      · rw [hf] at hk ⊢
        simp only [Bool.not_true, Bool.false_eq_true, if_false, if_true] at hk ⊢
        have := h k hk
        simp only [List.length_append, List.length_cons, List.length_nil]
        omega
      · rw [Bool.not_eq_true] at hf
        rw [hf] at hk ⊢
        simp only [Bool.not_true, Bool.false_eq_true, if_false] at hk ⊢
        exact h k hk
  · rw [Bool.not_eq_true] at hv
    rw [hv] at hk ⊢
    simp only [Bool.not_false, if_true] at hk ⊢
    exact h k hk

/-- If the scan recorded an index for the current preset, that index is in
range of the list of preset files it built. -/
theorem build_preset_list_index_lt (valid is_current fmatch : String → Bool) :
    ∀ (entries : List String) (acc : List String × Option Nat),
      (∀ k, acc.2 = some k → k < acc.1.length) →
      ∀ k, (entries.foldl (preset_scan_step valid is_current fmatch) acc).2 =
          some k →
        k < (entries.foldl
          (preset_scan_step valid is_current fmatch) acc).1.length
  | [], _acc => fun h k hk => h k hk
  | p :: entries, acc => by
      intro h k hk
      rw [List.foldl_cons] at hk ⊢
      exact build_preset_list_index_lt valid is_current fmatch entries _
        (preset_scan_step_index_lt valid is_current fmatch acc p h) k hk

/-- The default-carrying head accessor agrees with positional access at 0. -/
theorem headD_eq_getD_zero (l : List String) (d : String) :
    l.headD d = l.getD 0 d := by
  cases l <;> rfl

/-- The default-carrying last accessor agrees with positional access at
`length - 1`. -/
theorem getLastD_eq_getD (l : List String) (d : String) :
    l.getLastD d = l.getD (l.length - 1) d := by
  rw [List.getLastD_eq_getLast?, List.getLast?_eq_getElem?,
    List.getD_eq_getElem?_getD]

/-- C9: `switch_to_next_preset`, in terms of the candidate list `paths` and
current-index `idx` produced by its directory scan: it returns `false` exactly
when the list is empty, leaving the current preset unchanged; when the current
preset was found at index `k` it selects index `(k+1) mod n` (forward) or
`(k+n-1) mod n` (reverse); when the current preset was not found it selects
the first (forward) or last (reverse) file. -/
theorem c9_switch_to_next_preset (entries : List String)
    (valid is_current fmatch : String → Bool) (reversed : Bool)
    (current : String) (paths : List String) (idx : Option Nat)
    (hscan : build_preset_list entries valid is_current fmatch = (paths, idx)) :
    ((switch_to_next_preset entries valid is_current fmatch reversed current).1
        = false ↔ paths = []) ∧
    (paths = [] →
      (switch_to_next_preset entries valid is_current fmatch reversed current).2
        = current) ∧
    (∀ k, idx = some k →
      (reversed = false →
        (switch_to_next_preset entries valid is_current fmatch reversed current).2
          = paths.getD ((k + 1) % paths.length) current) ∧
      (reversed = true →
        (switch_to_next_preset entries valid is_current fmatch reversed current).2
          = paths.getD ((k + paths.length - 1) % paths.length) current)) ∧
    (idx = none → paths ≠ [] →
      (switch_to_next_preset entries valid is_current fmatch reversed current).2
        = if reversed then paths.getLastD current else paths.headD current) := by
  have hk_lt : ∀ k, idx = some k → k < paths.length := by
    intro k hk
    have := build_preset_list_index_lt valid is_current fmatch entries
      ([], none) (by intro k' hk'; simp at hk') k
    simp only [build_preset_list] at hscan
    rw [hscan] at this
    exact this hk
  simp only [switch_to_next_preset, hscan]
  by_cases hemp : paths = []
  · subst hemp
    simp
  · have hemp' : paths.isEmpty = false := by
      cases paths with
      | nil => exact absurd rfl hemp
      | cons a t => rfl
    rw [hemp']
    simp only [Bool.false_eq_true, if_false]
    refine ⟨?_, fun h => absurd h hemp, ?_, ?_⟩
    · constructor
      · intro h
        cases idx with
        | none => simp at h
        | some k =>
            cases reversed <;> simp at h
      · intro h
        exact absurd h hemp
    · intro k hk
      subst hk
      have hklt := hk_lt k rfl
      have hlen : 0 < paths.length := List.length_pos.mpr hemp
      constructor
      · intro hrev
        subst hrev
        simp only [Bool.false_eq_true, if_false]
        by_cases hlast : k = paths.length - 1
        · subst hlast
          have hmod : (paths.length - 1 + 1) % paths.length = 0 := by
            have : paths.length - 1 + 1 = paths.length := by omega
            rw [this, Nat.mod_self]
          rw [if_pos rfl, hmod, headD_eq_getD_zero]
        · have hmod : (k + 1) % paths.length = k + 1 :=
            Nat.mod_eq_of_lt (by omega)
          rw [if_neg hlast, hmod]
      · intro hrev
        subst hrev
        simp only [if_true]
        by_cases hzero : k = 0
        · subst hzero
          have hmod : (0 + paths.length - 1) % paths.length =
              paths.length - 1 := by
            have h0 : 0 + paths.length - 1 = paths.length - 1 := by omega
            rw [h0]
            exact Nat.mod_eq_of_lt (by omega)
          rw [if_pos rfl, hmod, getLastD_eq_getD]
        · have harith : k + paths.length - 1 = (k - 1) + paths.length := by
            omega
          have hmod : (k + paths.length - 1) % paths.length = k - 1 := by
            rw [harith, Nat.add_mod_right]
            exact Nat.mod_eq_of_lt (by omega)
          rw [if_neg hzero, hmod]
    · intro hnone _
      subst hnone
      cases reversed <;> rfl

/-- C9 witness: three candidate files, the current preset second; forward
selection wraps to the third, reverse selection picks the first. -/
theorem c9_switch_to_next_preset_witness :
    ((switch_to_next_preset ["a", "b", "c"] (fun _ => true) (fun p => p == "b")
        (fun _ => true) false "b").1 = false ↔ (["a", "b", "c"] : List String) = []) ∧
    ((["a", "b", "c"] : List String) = [] →
      (switch_to_next_preset ["a", "b", "c"] (fun _ => true) (fun p => p == "b")
        (fun _ => true) false "b").2 = "b") ∧
    (∀ k, (some 1 : Option Nat) = some k →
      (false = false →
        (switch_to_next_preset ["a", "b", "c"] (fun _ => true) (fun p => p == "b")
          (fun _ => true) false "b").2 =
          (["a", "b", "c"] : List String).getD ((k + 1) % 3) "b") ∧
      (false = true →
        (switch_to_next_preset ["a", "b", "c"] (fun _ => true) (fun p => p == "b")
          (fun _ => true) false "b").2 =
          (["a", "b", "c"] : List String).getD ((k + 3 - 1) % 3) "b")) ∧
    ((some 1 : Option Nat) = none → (["a", "b", "c"] : List String) ≠ [] →
      (switch_to_next_preset ["a", "b", "c"] (fun _ => true) (fun p => p == "b")
        (fun _ => true) false "b").2 =
        if false then (["a", "b", "c"] : List String).getLastD "b"
        else (["a", "b", "c"] : List String).headD "b") :=
  c9_switch_to_next_preset ["a", "b", "c"] (fun _ => true) (fun p => p == "b")
    (fun _ => true) false "b" ["a", "b", "c"] (some 1) (by decide)

/-! ## Claims C1 and C3 -/

/-- Running `find?` over a list whose prefix has no match returns the first match. -/
theorem find?_first (p : Texture → Bool) :
    ∀ (pre : List Texture) (x : Texture) (post : List Texture),
      (∀ t ∈ pre, p t = false) → p x = true →
      (pre ++ x :: post).find? p = some x
  | [], x, post, _, hx => by simp [List.find?_cons, hx]
  | t :: pre, x, post, hpre, hx => by
      have ht := hpre t (List.mem_cons_self t pre)
      simp only [List.cons_append, List.find?_cons, ht]
      exact find?_first p pre x post (fun u hu => hpre u (List.mem_cons_of_mem t hu)) hx

/-- Running `updateFirst` over a list whose prefix has no match rewrites the first
match. -/
theorem updateFirst_first (p : Texture → Bool) (f : Texture → Texture) :
    ∀ (pre : List Texture) (x : Texture) (post : List Texture),
      (∀ t ∈ pre, p t = false) → p x = true →
      updateFirst p f (pre ++ x :: post) = pre ++ f x :: post
  | [], x, post, _, hx => by simp [updateFirst, hx]
  | t :: pre, x, post, hpre, hx => by
      have ht := hpre t (List.mem_cons_self t pre)
      have ih := updateFirst_first p f pre x post
        (fun u hu => hpre u (List.mem_cons_of_mem t hu)) hx
      simp only [List.cons_append, updateFirst, ht, Bool.false_eq_true, if_false]
      exact congrArg (fun l => t :: l) ih

/-- The effect index appended by `share_with` is in the resulting shared list,
and both usage flags are forced. -/
theorem share_with_spec (effect_index : Nat) (t : Texture) :
    effect_index ∈ (share_with effect_index t).shared ∧
      (share_with effect_index t).render_target = true ∧
      (share_with effect_index t).storage_access = true := by
  refine ⟨?_, rfl, rfl⟩
  simp only [share_with]
  by_cases hmem : effect_index ∈ t.shared
  · simp [hmem]
  · simp [hmem]

/-- The function `unload_textures` distributes over list concatenation. -/
theorem unload_textures_append (effect_index : Nat) :
    ∀ (l₁ l₂ : List Texture),
      unload_textures effect_index (l₁ ++ l₂) =
        ((unload_textures effect_index l₁).1 ++ (unload_textures effect_index l₂).1,
         (unload_textures effect_index l₁).2 ++ (unload_textures effect_index l₂).2)
  | [], l₂ => by simp [unload_textures]
  | t :: l₁, l₂ => by
      have ih := unload_textures_append effect_index l₁ l₂
      by_cases h : ((t.shared.filter (fun i => i != effect_index)).isEmpty) = true
      · simp [List.cons_append, unload_textures, ih, h]
      · have h' : ((t.shared.filter (fun i => i != effect_index)).isEmpty) = false := by
          revert h
          cases (t.shared.filter (fun i => i != effect_index)).isEmpty <;> simp
        simp [List.cons_append, unload_textures, ih, h']

/-- The textures destroyed by `unload_textures` are exactly those whose shared
list becomes empty once the unloaded effect index is removed. -/
theorem unload_textures_destroyed (effect_index : Nat) :
    ∀ ts : List Texture,
      (unload_textures effect_index ts).2 =
        (ts.filter (fun t =>
          (t.shared.filter (fun i => i != effect_index)).isEmpty)).map
          (fun t => destroy_texture
            { t with shared := t.shared.filter (fun i => i != effect_index) })
  | [] => rfl
  | t :: ts => by
      simp only [unload_textures, List.filter_cons]
      by_cases h : ((t.shared.filter (fun i => i != effect_index)).isEmpty) = true
      · simp [h, unload_textures_destroyed effect_index ts]
      · have h' : ((t.shared.filter (fun i => i != effect_index)).isEmpty) = false := by
          revert h
          cases (t.shared.filter (fun i => i != effect_index)).isEmpty <;> simp
        simp [h', unload_textures_destroyed effect_index ts]

/-- C1: two effects `i ≠ j` each declaring a texture with the same unique name
and the same semantic, loaded into a registry holding no texture of that name
(and no pooled textures): after both merges succeed (`compiled` stays true),
the registry contains exactly one entry of that name, shared by `[i, j]`;
unloading effect `j` removes only `j` from that shared list, keeps the entry
(its resource untouched, so a live GPU resource stays alive) and does not
destroy it; and in general `unload_textures` destroys exactly the textures
whose shared list becomes empty. -/
theorem c1_shared_texture_lifetime (fnames : Nat → String)
    (samplers1 samplers2 : List SamplerInfo) (bd i j : Nat)
    (ts0 : List Texture) (tex1 tex2 : Texture) (errs1 errs2 : List String)
    (hname : tex2.unique_name = tex1.unique_name)
    (hsem : tex2.semantic = tex1.semantic)
    (hij : i ≠ j)
    (h0 : ∀ t ∈ ts0, (t.unique_name == tex1.unique_name) = false)
    (hpool : ∀ t ∈ ts0, t.pooled = false)
    (hshared : tex1.shared = []) :
    ∃ T : Texture,
      (merge_textures fnames samplers1 bd i [tex1] ts0 errs1 true).1 =
        ts0 ++ [{ tex1 with effect_index := i, shared := [i] }] ∧
      (merge_textures fnames samplers1 bd i [tex1] ts0 errs1 true).2.2 = true ∧
      (merge_textures fnames samplers2 bd j [tex2]
          (ts0 ++ [{ tex1 with effect_index := i, shared := [i] }]) errs2 true).1 =
        ts0 ++ [T] ∧
      (merge_textures fnames samplers2 bd j [tex2]
          (ts0 ++ [{ tex1 with effect_index := i, shared := [i] }]) errs2 true).2.2 = true ∧
      T.unique_name = tex1.unique_name ∧ T.shared = [i, j] ∧
      T.render_target = true ∧ T.storage_access = true ∧
      T.resource = tex1.resource ∧
      ((ts0 ++ [T]).filter
        (fun t => t.unique_name == tex1.unique_name)).length = 1 ∧
      (unload_textures j (ts0 ++ [T])).1 =
        (unload_textures j ts0).1 ++ [{ T with shared := [i] }] ∧
      (unload_textures j (ts0 ++ [T])).2 = (unload_textures j ts0).2 ∧
      (∀ (ei : Nat) (ts : List Texture),
        (unload_textures ei ts).2 =
          (ts.filter (fun t =>
            (t.shared.filter (fun x => x != ei)).isEmpty)).map
            (fun t => destroy_texture
              { t with shared := t.shared.filter (fun x => x != ei) })) := by
  obtain ⟨n1, s1, ei1, w1, h1, l1, f1, p1, sa1, rt1, st1, sh1, r1⟩ := tex1
  dsimp only at hshared hname hsem h0
  subst hshared
  have hfind1 : ts0.find? (fun item => item.unique_name == n1) = none :=
    List.find?_eq_none.mpr (fun t ht => by simp [h0 t ht])
  have hfindp : ts0.find? (fun item => item.pooled && item.effect_index != i &&
      matches_description item
        (Texture.mk n1 s1 i w1 h1 l1 f1 p1 sa1 rt1 st1 [] r1)) = none :=
    List.find?_eq_none.mpr (fun t ht => by simp [hpool t ht])
  have hstep1 : ∃ w, merge_texture fnames samplers1 bd i errs1 ts0
      (Texture.mk n1 s1 ei1 w1 h1 l1 f1 p1 sa1 rt1 st1 [] r1) =
      .stepped (ts0 ++ [Texture.mk n1 s1 i w1 h1 l1 f1 p1 sa1 rt1 st1 [i] r1]) w := by
    simp only [merge_texture, hfind1, hfindp, Option.isSome_none, Bool.and_false,
      Bool.false_eq_true, if_false, List.nil_append]
    exact ⟨_, rfl⟩
  obtain ⟨wl1, hstep1⟩ := hstep1
  have hload1 : merge_textures fnames samplers1 bd i
      [Texture.mk n1 s1 ei1 w1 h1 l1 f1 p1 sa1 rt1 st1 [] r1] ts0 errs1 true =
      (ts0 ++ [Texture.mk n1 s1 i w1 h1 l1 f1 p1 sa1 rt1 st1 [i] r1], wl1, true) := by
    simp only [merge_textures, hstep1]
  have hpre2 : ∀ t ∈ ts0, (t.unique_name == tex2.unique_name) = false := by
    intro t ht
    rw [hname]
    exact h0 t ht
  have hfind2 : (ts0 ++ [Texture.mk n1 s1 i w1 h1 l1 f1 p1 sa1 rt1 st1 [i] r1]).find?
      (fun item => item.unique_name == tex2.unique_name) =
      some (Texture.mk n1 s1 i w1 h1 l1 f1 p1 sa1 rt1 st1 [i] r1) :=
    find?_first _ ts0 _ [] hpre2 (by simp [hname])
  have hupd2 : updateFirst (fun item => item.unique_name == tex2.unique_name)
      (share_with j) (ts0 ++ [Texture.mk n1 s1 i w1 h1 l1 f1 p1 sa1 rt1 st1 [i] r1]) =
      ts0 ++ [share_with j (Texture.mk n1 s1 i w1 h1 l1 f1 p1 sa1 rt1 st1 [i] r1)] :=
    updateFirst_first _ _ ts0 _ [] hpre2 (by simp [hname])
  have hji : j ∉ ([i] : List Nat) := by
    intro hmem
    exact hij (List.mem_singleton.mp hmem).symm
  have hji2 : ¬(j = i) := fun h => hij h.symm
  have hsharej : share_with j (Texture.mk n1 s1 i w1 h1 l1 f1 p1 sa1 rt1 st1 [i] r1) =
      Texture.mk n1 s1 i w1 h1 l1 f1 p1 sa1 true true [i, j] r1 := by
    simp [share_with, hji, hji2]
  have hstep2 : ∃ w, merge_texture fnames samplers2 bd j errs2
      (ts0 ++ [Texture.mk n1 s1 i w1 h1 l1 f1 p1 sa1 rt1 st1 [i] r1]) tex2 =
      .stepped (ts0 ++ [Texture.mk n1 s1 i w1 h1 l1 f1 p1 sa1 true true [i, j] r1]) w := by
    simp only [merge_texture, hfind2]
    rw [if_neg (by simp [hsem])]
    rw [hupd2, hsharej]
    exact ⟨_, rfl⟩
  obtain ⟨wl2, hstep2⟩ := hstep2
  have hload2 : merge_textures fnames samplers2 bd j [tex2]
      (ts0 ++ [Texture.mk n1 s1 i w1 h1 l1 f1 p1 sa1 rt1 st1 [i] r1]) errs2 true =
      (ts0 ++ [Texture.mk n1 s1 i w1 h1 l1 f1 p1 sa1 true true [i, j] r1], wl2, true) := by
    simp only [merge_textures, hstep2]
  have hij' : (i != j) = true := by simp [hij]
  have hunlT : unload_textures j
      [Texture.mk n1 s1 i w1 h1 l1 f1 p1 sa1 true true [i, j] r1] =
      ([Texture.mk n1 s1 i w1 h1 l1 f1 p1 sa1 true true [i] r1], []) := by
    simp [unload_textures, hij']
  have hunl := unload_textures_append j ts0
    [Texture.mk n1 s1 i w1 h1 l1 f1 p1 sa1 true true [i, j] r1]
  have hfilter0 : ts0.filter (fun t => t.unique_name == n1) = [] :=
    List.filter_eq_nil_iff.mpr (fun t ht => by simp [h0 t ht])
  refine ⟨Texture.mk n1 s1 i w1 h1 l1 f1 p1 sa1 true true [i, j] r1,
    ?_, ?_, ?_, ?_, rfl, rfl, rfl, rfl, rfl, ?_, ?_, ?_, ?_⟩
  · rw [hload1]
  · rw [hload1]
  · rw [hload2]
  · rw [hload2]
  · simp [List.filter_append, hfilter0]
  · rw [hunl, hunlT]
  · rw [hunl, hunlT]
    simp
  · exact fun ei ts => unload_textures_destroyed ei ts

/-- C1 witness: two effects `0` and `1` each declaring texture `"T"` into an
empty registry. -/
theorem c1_shared_texture_lifetime_witness :
    (0 : Nat) ≠ 1 ∧
    ∃ T : Texture,
      (merge_textures (fun _ => "a.fx") [] 8 1
          [(⟨"T", "", 9, 4, 4, 1, 0, false, "", false, false, [], false⟩ : Texture)]
          ([] ++ [{ (⟨"T", "", 7, 4, 4, 1, 0, false, "", false, false, [], false⟩ : Texture)
            with effect_index := 0, shared := [0] }]) [] true).1 = [] ++ [T] ∧
      T.shared = [0, 1] ∧ T.render_target = true ∧
      (unload_textures 1 ([] ++ [T])).1 =
        (unload_textures 1 []).1 ++ [{ T with shared := [0] }] := by
  refine ⟨by decide, ?_⟩
  obtain ⟨T, h⟩ := c1_shared_texture_lifetime (fun _ => "a.fx") [] [] 8 0 1 []
    ⟨"T", "", 7, 4, 4, 1, 0, false, "", false, false, [], false⟩
    ⟨"T", "", 9, 4, 4, 1, 0, false, "", false, false, [], false⟩ [] []
    (by decide) (by decide) (by decide) (by decide) (by decide) (by decide)
  exact ⟨T, h.2.2.1, h.2.2.2.2.2.1, h.2.2.2.2.2.2.1, h.2.2.2.2.2.2.2.2.2.2.1⟩

/-- C3 counterexample: two effects declare texture `"T"` with the same
non-empty semantic `"DEPTH"` but different dimensions.  The claim says a
warning line is appended, yet the merge appends nothing (the dimension check
at `runtime.cpp:697` is gated on the semantic being empty); sharing still
occurs with both usage flags forced. -/
theorem c3_dimension_warning_counterexample :
    matches_description
      (⟨"T", "DEPTH", 0, 100, 100, 1, 0, false, "", false, false, [0], false⟩ : Texture)
      (⟨"T", "DEPTH", 0, 50, 50, 1, 0, false, "", false, false, [], false⟩ : Texture) = false ∧
    (⟨"T", "DEPTH", 0, 50, 50, 1, 0, false, "", false, false, [], false⟩ : Texture).semantic =
      (⟨"T", "DEPTH", 0, 100, 100, 1, 0, false, "", false, false, [0], false⟩ : Texture).semantic ∧
    merge_texture (fun _ => "a.fx") [] 8 1 []
      [⟨"T", "DEPTH", 0, 100, 100, 1, 0, false, "", false, false, [0], false⟩]
      ⟨"T", "DEPTH", 0, 50, 50, 1, 0, false, "", false, false, [], false⟩ =
      .stepped [⟨"T", "DEPTH", 0, 100, 100, 1, 0, false, "", true, true, [0, 1], false⟩]
        [] := by
  decide

/-- C3 (amended): when `load_effect` merges a texture declaration and an
existing texture with the same unique name exists: if the semantics differ, an
error line is appended, the effect's `compiled` flag becomes false and the
remaining declarations are not processed (no sharing); if the semantics match
and are empty and the dimensions/format differ, only a warning line is
appended and the effect index is still added to the existing texture's shared
list with `render_target` and `storage_access` forced true; if the semantics
match but are non-empty, the dimension mismatch appends no line at all (the
warning is gated on an empty semantic) while sharing and flag forcing still
occur. -/
theorem c3_shared_texture_merge (fnames : Nat → String)
    (samplers : List SamplerInfo) (bd ei : Nat) (errs : List String)
    (pre post : List Texture) (existing decl : Texture) (more : List Texture)
    (hpre : ∀ t ∈ pre, (t.unique_name == decl.unique_name) = false)
    (hname : existing.unique_name = decl.unique_name) :
    (decl.semantic ≠ existing.semantic →
      merge_textures fnames samplers bd ei (decl :: more)
          (pre ++ existing :: post) errs true =
        (pre ++ existing :: post,
         errs ++ ["error: " ++ decl.unique_name ++ ": another effect ("
           ++ fnames existing.effect_index
           ++ ") already created a texture with the same name but different semantic"],
         false)) ∧
    (decl.semantic = existing.semantic → decl.semantic = "" →
      matches_description existing { decl with effect_index := ei } = false →
      existing.source_annot = decl.source_annot →
      merge_texture fnames samplers bd ei errs (pre ++ existing :: post) decl =
        .stepped (pre ++ share_with ei existing :: post)
          (errs ++ ["warning: " ++ decl.unique_name ++ ": another effect ("
            ++ fnames existing.effect_index
            ++ ") already created a texture with the same name but different dimensions"])) ∧
    (decl.semantic = existing.semantic → decl.semantic ≠ "" →
      existing.semantic ≠ "COLOR" →
      merge_texture fnames samplers bd ei errs (pre ++ existing :: post) decl =
        .stepped (pre ++ share_with ei existing :: post) errs) ∧
    (ei ∈ (share_with ei existing).shared ∧
      (share_with ei existing).render_target = true ∧
      (share_with ei existing).storage_access = true) := by
  have hfind : (pre ++ existing :: post).find?
      (fun item => item.unique_name == decl.unique_name) = some existing :=
    find?_first _ pre existing post hpre (by simp [hname])
  have hupd : updateFirst (fun item => item.unique_name == decl.unique_name)
      (share_with ei) (pre ++ existing :: post) =
      pre ++ share_with ei existing :: post :=
    updateFirst_first _ _ pre existing post hpre (by simp [hname])
  refine ⟨?_, ?_, ?_, share_with_spec ei existing⟩
  · intro h
    simp only [merge_textures, merge_texture, hfind]
    rw [if_pos h]
  · intro h1 h2 h3 h4
    have hsemcol : ¬(existing.semantic = "COLOR") := by
      rw [← h1, h2]
      intro hcontra
      exact absurd hcontra.symm (by decide)
    rw [h2] at h3
    simp only [merge_texture, hfind]
    rw [if_neg (fun hcontra => hcontra h1), hupd]
    simp [h2, h3, h4, hsemcol]
  · intro h1 h2 h3
    simp only [merge_texture, hfind]
    rw [if_neg (fun hcontra => hcontra h1), hupd]
    have hsemcol : ¬(existing.semantic = "COLOR") := fun hc => h3 hc
    simp [h2, hsemcol]

/-- C3 witness: the amended statement at a concrete registry (one existing
texture named `"T"` with empty semantic). -/
theorem c3_shared_texture_merge_witness :
    ((⟨"T", "", 0, 50, 50, 1, 0, false, "", false, false, [], false⟩ : Texture).semantic ≠
        (⟨"T", "", 0, 100, 100, 1, 0, false, "", false, false, [0], false⟩ : Texture).semantic →
      merge_textures (fun _ => "a.fx") [] 8 1
          [⟨"T", "", 0, 50, 50, 1, 0, false, "", false, false, [], false⟩]
          ([] ++ (⟨"T", "", 0, 100, 100, 1, 0, false, "", false, false, [0], false⟩ : Texture) :: []) [] true =
        ([] ++ (⟨"T", "", 0, 100, 100, 1, 0, false, "", false, false, [0], false⟩ : Texture) :: [],
         [] ++ ["error: " ++ "T" ++ ": another effect (" ++ (fun _ => "a.fx") 0
           ++ ") already created a texture with the same name but different semantic"],
         false)) ∧
    ((⟨"T", "", 0, 50, 50, 1, 0, false, "", false, false, [], false⟩ : Texture).semantic =
        (⟨"T", "", 0, 100, 100, 1, 0, false, "", false, false, [0], false⟩ : Texture).semantic →
      (⟨"T", "", 0, 50, 50, 1, 0, false, "", false, false, [], false⟩ : Texture).semantic = "" →
      matches_description (⟨"T", "", 0, 100, 100, 1, 0, false, "", false, false, [0], false⟩ : Texture)
        { (⟨"T", "", 0, 50, 50, 1, 0, false, "", false, false, [], false⟩ : Texture)
          with effect_index := 1 } = false →
      (⟨"T", "", 0, 100, 100, 1, 0, false, "", false, false, [0], false⟩ : Texture).source_annot =
        (⟨"T", "", 0, 50, 50, 1, 0, false, "", false, false, [], false⟩ : Texture).source_annot →
      merge_texture (fun _ => "a.fx") [] 8 1 []
          ([] ++ (⟨"T", "", 0, 100, 100, 1, 0, false, "", false, false, [0], false⟩ : Texture) :: [])
          ⟨"T", "", 0, 50, 50, 1, 0, false, "", false, false, [], false⟩ =
        .stepped ([] ++ share_with 1 (⟨"T", "", 0, 100, 100, 1, 0, false, "", false, false, [0], false⟩ : Texture) :: [])
          ([] ++ ["warning: " ++ "T" ++ ": another effect (" ++ (fun _ => "a.fx") 0
            ++ ") already created a texture with the same name but different dimensions"])) ∧
    ((⟨"T", "", 0, 50, 50, 1, 0, false, "", false, false, [], false⟩ : Texture).semantic =
        (⟨"T", "", 0, 100, 100, 1, 0, false, "", false, false, [0], false⟩ : Texture).semantic →
      (⟨"T", "", 0, 50, 50, 1, 0, false, "", false, false, [], false⟩ : Texture).semantic ≠ "" →
      (⟨"T", "", 0, 100, 100, 1, 0, false, "", false, false, [0], false⟩ : Texture).semantic ≠ "COLOR" →
      merge_texture (fun _ => "a.fx") [] 8 1 []
          ([] ++ (⟨"T", "", 0, 100, 100, 1, 0, false, "", false, false, [0], false⟩ : Texture) :: [])
          ⟨"T", "", 0, 50, 50, 1, 0, false, "", false, false, [], false⟩ =
        .stepped ([] ++ share_with 1 (⟨"T", "", 0, 100, 100, 1, 0, false, "", false, false, [0], false⟩ : Texture) :: []) []) ∧
    (1 ∈ (share_with 1 (⟨"T", "", 0, 100, 100, 1, 0, false, "", false, false, [0], false⟩ : Texture)).shared ∧
      (share_with 1 (⟨"T", "", 0, 100, 100, 1, 0, false, "", false, false, [0], false⟩ : Texture)).render_target = true ∧
      (share_with 1 (⟨"T", "", 0, 100, 100, 1, 0, false, "", false, false, [0], false⟩ : Texture)).storage_access = true) :=
  c3_shared_texture_merge (fun _ => "a.fx") [] 8 1 [] [] []
    ⟨"T", "", 0, 100, 100, 1, 0, false, "", false, false, [0], false⟩
    ⟨"T", "", 0, 50, 50, 1, 0, false, "", false, false, [], false⟩ []
    (by decide) (by decide)

/-! ## Claim C2 -/

/-- Evaluating a fold of point updates: if every visited triple that writes to
cell `k` writes the value `v`, and either the buffer already holds `v` at `k`
or some visited triple writes to `k`, then the final buffer holds `v` at `k`. -/
theorem foldl_upd_of (keyf valf : Nat × Nat × Nat → Nat) :
    ∀ (l : List (Nat × Nat × Nat)) (st : Nat → Nat) (k v : Nat),
      (∀ t ∈ l, keyf t = k → valf t = v) →
      (st k = v ∨ ∃ t ∈ l, keyf t = k) →
      (l.foldl (fun s t => upd s (keyf t) (valf t)) st) k = v
  | [], st, k, v, _, hbase => by
      rcases hbase with h | ⟨t, ht, _⟩
      · exact h
      · exact absurd ht (List.not_mem_nil t)
  | t :: l, st, k, v, hsame, hbase => by
      rw [List.foldl_cons]
      refine foldl_upd_of keyf valf l _ k v
        (fun u hu hk => hsame u (List.mem_cons_of_mem t hu) hk) ?_
      by_cases hkt : keyf t = k
      · left
        have hv := hsame t (List.mem_cons_self t l) hkt
        simp [upd, hkt, hv]
      · rcases hbase with hst | ⟨u, hu, hk⟩
        · left
          simp only [upd]
          rw [if_neg (fun h => hkt h.symm)]
          exact hst
        · rcases List.mem_cons.mp hu with rfl | hu'
          · exact absurd hk hkt
          · exact Or.inr ⟨u, hu', hk⟩

/-- Uniqueness of quotient and remainder in a block decomposition. -/
theorem block_decomp_inj {d q q' rem rem' : Nat} (h1 : rem < d) (h2 : rem' < d)
    (he : q * d + rem = q' * d + rem') : q = q' ∧ rem = rem' := by
  have hd : 0 < d := by omega
  have e1 : (q * d + rem) / d = q := by
    rw [Nat.mul_comm q d, Nat.mul_add_div hd, Nat.div_eq_of_lt h1]
    omega
  have e2 : (q' * d + rem') / d = q' := by
    rw [Nat.mul_comm q' d, Nat.mul_add_div hd, Nat.div_eq_of_lt h2]
    omega
  have hq : q = q' := by rw [← e1, he, e2]
  subst hq
  exact ⟨rfl, by omega⟩

/-- Injectivity of the storage-cell index of a matrix element: with at most 4
columns, distinct `(a, row, col)` triples write distinct storage cells. -/
theorem store_key_inj (off rows cols base : Nat) (hC : cols ≤ 4)
    {a r c a' r' c' : Nat} (hr : r < rows) (hc : c < cols) (hr' : r' < rows)
    (hc' : c' < cols)
    (h : off + (base + a) * (rows * 4) + r * 4 + c =
      off + (base + a') * (rows * 4) + r' * 4 + c') :
    a = a' ∧ r = r' ∧ c = c' := by
  have h1 : (base + a) * (rows * 4) + (r * 4 + c) =
      (base + a') * (rows * 4) + (r' * 4 + c') := by omega
  have hb : r * 4 + c < rows * 4 := by omega
  have hb' : r' * 4 + c' < rows * 4 := by omega
  obtain ⟨ha, hrc⟩ := block_decomp_inj hb hb' h1
  obtain ⟨hr2, hc2⟩ := block_decomp_inj (show c < 4 by omega)
    (show c' < 4 by omega) hrc
  exact ⟨by omega, hr2, hc2⟩

/-- Injectivity of the caller-array index of a matrix element. -/
theorem out_key_inj (rows cols : Nat) {a r c a' r' c' : Nat} (hr : r < rows)
    (hc : c < cols) (hr' : r' < rows) (hc' : c' < cols)
    (h : a * (rows * cols) + r * cols + c =
      a' * (rows * cols) + r' * cols + c') :
    a = a' ∧ r = r' ∧ c = c' := by
  have hrem : r * cols + c < rows * cols := by
    calc r * cols + c < r * cols + cols := by omega
      _ = (r + 1) * cols := by ring
      _ ≤ rows * cols := Nat.mul_le_mul_right cols (by omega)
  have hrem' : r' * cols + c' < rows * cols := by
    calc r' * cols + c' < r' * cols + cols := by omega
      _ = (r' + 1) * cols := by ring
      _ ≤ rows * cols := Nat.mul_le_mul_right cols (by omega)
  have h1 : a * (rows * cols) + (r * cols + c) =
      a' * (rows * cols) + (r' * cols + c') := by omega
  obtain ⟨ha, hrc⟩ := block_decomp_inj hrem hrem' h1
  obtain ⟨hr2, hc2⟩ := block_decomp_inj hc hc' hrc
  exact ⟨ha, hr2, hc2⟩

/-- Membership in the loop-order triple list is exactly boundedness. -/
theorem mem_mTriples {n rows cols : Nat} {t : Nat × Nat × Nat} :
    t ∈ mTriples n rows cols ↔ t.1 < n ∧ t.2.1 < rows ∧ t.2.2 < cols := by
  obtain ⟨a, r, c⟩ := t
  simp only [mTriples, List.mem_flatMap, List.mem_map, List.mem_range]
  constructor
  · rintro ⟨a', ha', r', hr', c', hc', heq⟩
    injection heq with h1 hrest
    injection hrest with h2 h3
    subst h1; subst h2; subst h3
    exact ⟨ha', hr', hc'⟩
  · rintro ⟨ha, hr, hc⟩
    exact ⟨a, ha, r, hr, c, hc, rfl⟩

/-- The triple list for a positive block count starts with the whole first
block `(0, r, c)`. -/
theorem mTriples_eq_append (n rows cols : Nat) (hn : 0 < n) :
    ∃ rest, mTriples n rows cols =
      ((List.range rows).flatMap fun r =>
        (List.range cols).map fun c => ((0 : Nat), r, c)) ++ rest := by
  cases n with
  | zero => omega
  | succ m =>
      refine ⟨((List.range m).map Nat.succ).flatMap fun a =>
        (List.range rows).flatMap fun r =>
          (List.range cols).map fun c => (a, r, c), ?_⟩
      rw [mTriples, List.range_succ_eq_map, List.flatMap_cons]

/-- The first block has `rows * cols` entries. -/
theorem length_block (rows cols : Nat) :
    ((List.range rows).flatMap fun r =>
      (List.range cols).map fun c => ((0 : Nat), r, c)).length = rows * cols := by
  induction rows with
  | zero => simp
  | succ m ih =>
      rw [List.range_succ, List.flatMap_append]
      simp [ih, Nat.succ_mul]

/-- Every first-block triple is among the first `size4` visited triples as
soon as `rows * cols ≤ size4`. -/
theorem mem_take_mTriples {n rows cols size4 r c : Nat} (hn : 0 < n)
    (hs : rows * cols ≤ size4) (hr : r < rows) (hc : c < cols) :
    ((0 : Nat), r, c) ∈ (mTriples n rows cols).take size4 := by
  obtain ⟨rest, hrest⟩ := mTriples_eq_append n rows cols hn
  rw [hrest, List.take_append_eq_append_take]
  refine List.mem_append_left _ ?_
  have hlen := length_block rows cols
  have htake : (((List.range rows).flatMap fun r =>
      (List.range cols).map fun c => ((0 : Nat), r, c)).take size4) =
      ((List.range rows).flatMap fun r =>
        (List.range cols).map fun c => ((0 : Nat), r, c)) :=
    List.take_of_length_le (by omega)
  rw [htake]
  simp only [List.mem_flatMap, List.mem_map, List.mem_range]
  exact ⟨r, hr, c, hc, rfl⟩

/-- Reading back the storage cell written for matrix element `(r, c)` of the
array element at `base`: each row is 4-cell (16-byte) aligned, so the cell is
`off + base * (rows * 4) + r * 4 + c`, and it holds `data (r * cols + c)`. -/
theorem set_matrix_cell (off rows cols a_len base size4 : Nat)
    (data st : Nat → Nat) (hC : cols ≤ 4) (hb : base < a_len)
    (hsz : rows * cols ≤ size4) (r c : Nat) (hr : r < rows) (hc : c < cols) :
    set_uniform_value_matrix off rows cols a_len base size4 data st
      (off + base * (rows * 4) + r * 4 + c) = data (r * cols + c) := by
  refine foldl_upd_of
    (fun t => off + (base + t.1) * (rows * 4) + t.2.1 * 4 + t.2.2)
    (fun t => data (t.1 * (rows * cols) + t.2.1 * cols + t.2.2))
    ((mTriples (a_len - base) rows cols).take size4) st
    (off + base * (rows * 4) + r * 4 + c) (data (r * cols + c)) ?_ ?_
  · rintro ⟨a', r', c'⟩ ht hk
    have hbnd := mem_mTriples.mp (List.take_subset _ _ ht)
    obtain ⟨ha', hr', hc'⟩ := hbnd
    have hk2 : off + (base + a') * (rows * 4) + r' * 4 + c' =
        off + (base + 0) * (rows * 4) + r * 4 + c := hk
    obtain ⟨ha0, hr0, hc0⟩ :=
      store_key_inj off rows cols base hC hr' hc' hr hc hk2
    subst ha0; subst hr0; subst hc0
    simp
  · right
    exact ⟨(0, r, c), mem_take_mTriples (by omega) hsz hr hc, rfl⟩

/-- Reading matrix element `(r, c)` of the array element at `base` out of the
storage: the caller's array receives the storage cell
`off + base * (rows * 4) + r * 4 + c` at position `r * cols + c`. -/
theorem get_matrix_cell (off rows cols a_len base size4 : Nat)
    (st out0 : Nat → Nat) (hb : base < a_len) (hsz : rows * cols ≤ size4)
    (r c : Nat) (hr : r < rows) (hc : c < cols) :
    get_uniform_value_matrix off rows cols a_len base size4 st out0
      (r * cols + c) = st (off + base * (rows * 4) + r * 4 + c) := by
  refine foldl_upd_of
    (fun t => t.1 * (rows * cols) + t.2.1 * cols + t.2.2)
    (fun t => st (off + (base + t.1) * (rows * 4) + t.2.1 * 4 + t.2.2))
    ((mTriples (a_len - base) rows cols).take size4) out0
    (r * cols + c) (st (off + base * (rows * 4) + r * 4 + c)) ?_ ?_
  · rintro ⟨a', r', c'⟩ ht hk
    obtain ⟨ha', hr', hc'⟩ := mem_mTriples.mp (List.take_subset _ _ ht)
    have hk2 : a' * (rows * cols) + r' * cols + c' =
        0 * (rows * cols) + r * cols + c := by
      rw [Nat.zero_mul]
      have hk3 : a' * (rows * cols) + r' * cols + c' = r * cols + c := hk
      omega
    obtain ⟨ha0, hr0, hc0⟩ := out_key_inj rows cols hr' hc' hr hc hk2
    subst ha0; subst hr0; subst hc0
    simp
  · right
    refine ⟨(0, r, c), mem_take_mTriples (by omega) hsz hr hc, ?_⟩
    simp

/-- The cell-level set on a matrix variable takes the matrix branch with the
requested size clamped to the variable's size. -/
theorem set_uniform_value_cells_matrix (b : BaseType)
    (off rows cols a_len base count : Nat) (data st : Nat → Nat)
    (hb : base < a_len) :
    set_uniform_value_cells (matrixVar b off rows cols a_len) data count base st =
      set_uniform_value_matrix off rows cols a_len base
        (min count (a_len * (rows * 4))) data st := by
  have hnb : ¬(a_len ≤ base) := by omega
  have ha : (if 1 < a_len then a_len else 1) = a_len := by
    by_cases h : 1 < a_len
    · simp [h]
    · have h1 : a_len = 1 := by omega
      simp [h, h1]
  simp [set_uniform_value_cells, matrixVar, ha, hnb]

/-- The cell-level get on a matrix variable takes the matrix branch with the
requested size clamped to the variable's size. -/
theorem get_uniform_value_cells_matrix (b : BaseType)
    (off rows cols a_len base count : Nat) (st out0 : Nat → Nat)
    (hb : base < a_len) :
    get_uniform_value_cells (matrixVar b off rows cols a_len) count base st out0 =
      get_uniform_value_matrix off rows cols a_len base
        (min count (a_len * (rows * 4))) st out0 := by
  have hnb : ¬(a_len ≤ base) := by omega
  have ha : (if 1 < a_len then a_len else 1) = a_len := by
    by_cases h : 1 < a_len
    · simp [h]
    · have h1 : a_len = 1 := by omega
      simp [h, h1]
  simp [get_uniform_value_cells, matrixVar, ha, hnb]

/-- C2: for a matrix uniform with `rows` rows and `cols ≤ 4` columns (any
array element `base < a_len`), on a backend that does not force floating-point
storage, writing `rows * cols` component values with `set_uniform_value` and
reading them back with `get_uniform_value` (same count and array index)
returns exactly the written values — for the int, uint, float and bool typed
accessors — and each matrix row is stored 4-cell (16-byte) aligned: component
`(r, c)` lands in storage cell `off + base * (rows * 4) + r * 4 + c`. -/
theorem c2_uniform_matrix_roundtrip (rid off rows cols a_len base : Nat)
    (fc : FloatConv) (data st out0 : Nat → Nat) (vals : List Bool)
    (hC : cols ≤ 4) (hb : base < a_len)
    (hrid9 : rid ≠ 0x9000) (hridgl : rid &&& 0x10000 = 0) :
    (∀ r, r < rows → ∀ c, c < cols →
      set_uniform_value_int fc rid (matrixVar .t_int off rows cols a_len) data
          (rows * cols) base st (off + base * (rows * 4) + r * 4 + c) =
        data (r * cols + c)) ∧
    (∀ r, r < rows → ∀ c, c < cols →
      get_uniform_value_int fc rid (matrixVar .t_int off rows cols a_len)
          (rows * cols) base
          (set_uniform_value_int fc rid (matrixVar .t_int off rows cols a_len)
            data (rows * cols) base st) out0 (r * cols + c) =
        data (r * cols + c)) ∧
    (∀ r, r < rows → ∀ c, c < cols →
      get_uniform_value_uint fc rid (matrixVar .t_uint off rows cols a_len)
          (rows * cols) base
          (set_uniform_value_uint fc rid (matrixVar .t_uint off rows cols a_len)
            data (rows * cols) base st) out0 (r * cols + c) =
        data (r * cols + c)) ∧
    (∀ r, r < rows → ∀ c, c < cols →
      get_uniform_value_float fc rid (matrixVar .t_float off rows cols a_len)
          (rows * cols) base
          (set_uniform_value_float fc rid (matrixVar .t_float off rows cols a_len)
            data (rows * cols) base st) out0 (r * cols + c) =
        data (r * cols + c)) ∧
    (∀ r, r < rows → ∀ c, c < cols →
      (get_uniform_value_bool (matrixVar .t_bool off rows cols a_len)
          (rows * cols) base
          (set_uniform_value_bool rid (matrixVar .t_bool off rows cols a_len)
            vals (rows * cols) base st) out0).getD (r * cols + c) false =
        vals.getD (r * cols + c) false) := by
  have hforce : ∀ b : BaseType,
      force_floating_point_value
        { base := b, rows := rows, cols := cols, array_length := a_len,
          is_array := decide (1 < a_len), is_matrix := true } rid = false := by
    intro b
    simp [force_floating_point_value, hrid9, hridgl]
  have hle : rows * cols ≤ a_len * (rows * 4) := by
    calc rows * cols ≤ rows * 4 := Nat.mul_le_mul_left rows hC
      _ = 1 * (rows * 4) := by ring
      _ ≤ a_len * (rows * 4) := Nat.mul_le_mul_right (rows * 4) (by omega)
  have hmin : min (rows * cols) (a_len * (rows * 4)) = rows * cols :=
    Nat.min_eq_left hle
  have hsetraw : ∀ (b : BaseType) (dta : Nat → Nat),
      set_uniform_value_cells (matrixVar b off rows cols a_len) dta
          (rows * cols) base st =
        set_uniform_value_matrix off rows cols a_len base (rows * cols) dta st := by
    intro b dta
    rw [set_uniform_value_cells_matrix b off rows cols a_len base _ dta st hb,
      hmin]
  have hgetraw : ∀ (b : BaseType) (st' : Nat → Nat),
      get_uniform_value_cells (matrixVar b off rows cols a_len)
          (rows * cols) base st' out0 =
        get_uniform_value_matrix off rows cols a_len base (rows * cols) st' out0 := by
    intro b st'
    rw [get_uniform_value_cells_matrix b off rows cols a_len base _ st' out0 hb,
      hmin]
  have hint : set_uniform_value_int fc rid (matrixVar .t_int off rows cols a_len)
      data (rows * cols) base st =
      set_uniform_value_matrix off rows cols a_len base (rows * cols) data st := by
    rw [set_uniform_value_int, if_neg (by simp [matrixVar,
      UniformType.is_floating_point, hforce .t_int]), hsetraw]
  have huint : set_uniform_value_uint fc rid (matrixVar .t_uint off rows cols a_len)
      data (rows * cols) base st =
      set_uniform_value_matrix off rows cols a_len base (rows * cols) data st := by
    rw [set_uniform_value_uint, if_neg (by simp [matrixVar,
      UniformType.is_floating_point, hforce .t_uint]), hsetraw]
  have hfloat : set_uniform_value_float fc rid (matrixVar .t_float off rows cols a_len)
      data (rows * cols) base st =
      set_uniform_value_matrix off rows cols a_len base (rows * cols) data st := by
    rw [set_uniform_value_float, if_pos (by simp [matrixVar,
      UniformType.is_floating_point]), hsetraw]
  refine ⟨?_, ?_, ?_, ?_, ?_⟩
  · intro r hr c hc
    rw [hint]
    exact set_matrix_cell off rows cols a_len base (rows * cols) data st hC hb
      (le_refl _) r c hr hc
  · intro r hr c hc
    rw [hint, get_uniform_value_int, if_pos (by simp [matrixVar,
      UniformType.is_integral, hforce .t_int]), hgetraw]
    rw [get_matrix_cell off rows cols a_len base (rows * cols) _ out0 hb
      (le_refl _) r c hr hc]
    exact set_matrix_cell off rows cols a_len base (rows * cols) data st hC hb
      (le_refl _) r c hr hc
  · intro r hr c hc
    rw [huint, get_uniform_value_uint, get_uniform_value_int,
      if_pos (by simp [matrixVar, UniformType.is_integral, hforce .t_uint]),
      hgetraw]
    rw [get_matrix_cell off rows cols a_len base (rows * cols) _ out0 hb
      (le_refl _) r c hr hc]
    exact set_matrix_cell off rows cols a_len base (rows * cols) data st hC hb
      (le_refl _) r c hr hc
  · intro r hr c hc
    rw [hfloat, get_uniform_value_float, if_pos (by simp [matrixVar,
      UniformType.is_floating_point]), hgetraw]
    rw [get_matrix_cell off rows cols a_len base (rows * cols) _ out0 hb
      (le_refl _) r c hr hc]
    exact set_matrix_cell off rows cols a_len base (rows * cols) data st hC hb
      (le_refl _) r c hr hc
  · intro r hr c hc
    have hlt : r * cols + c < rows * cols := by
      calc r * cols + c < r * cols + cols := by omega
        _ = (r + 1) * cols := by ring
        _ ≤ rows * cols := Nat.mul_le_mul_right cols (by omega)
    have hsetb : set_uniform_value_bool rid (matrixVar .t_bool off rows cols a_len)
        vals (rows * cols) base st =
        set_uniform_value_matrix off rows cols a_len base (rows * cols)
          (fun i => if vals.getD i false then 1 else 0) st := by
      rw [set_uniform_value_bool, if_neg (by simp [matrixVar,
        UniformType.is_floating_point, hforce .t_bool]), hsetraw]
    rw [get_uniform_value_bool, hsetb]
    have hszv : (matrixVar BaseType.t_bool off rows cols a_len).size4 =
        a_len * (rows * 4) := rfl
    rw [hszv, hmin]
    rw [get_uniform_value_cells_matrix .t_bool off rows cols a_len base _ _ out0 hb,
      Nat.min_self]
    rw [List.getD_eq_getElem?_getD, List.getElem?_map, List.getElem?_range hlt]
    rw [Option.map_some', Option.getD_some]
    rw [get_matrix_cell off rows cols a_len base (a_len * (rows * 4)) _ out0 hb
      hle r c hr hc]
    rw [set_matrix_cell off rows cols a_len base (rows * cols)
      (fun i => if vals.getD i false then 1 else 0) st hC hb (le_refl _) r c hr hc]
    cases hv : vals.getD (r * cols + c) false <;> simp [hv]

/-- C2 witness: a 2×2 int matrix at offset 5, array length 1, renderer
`0xb000`. -/
theorem c2_uniform_matrix_roundtrip_witness :
    ((2 : Nat) ≤ 4 ∧ (0 : Nat) < 1 ∧ (0xb000 : Nat) ≠ 0x9000 ∧
      (0xb000 : Nat) &&& 0x10000 = 0) ∧
    ((∀ r, r < 2 → ∀ c, c < 2 →
      set_uniform_value_int ⟨id, id, id, id⟩ 0xb000 (matrixVar .t_int 5 2 2 1)
          (fun i => i + 7) (2 * 2) 0 (fun _ => 0)
          (5 + 0 * (2 * 4) + r * 4 + c) = (fun i => i + 7) (r * 2 + c)) ∧
    (∀ r, r < 2 → ∀ c, c < 2 →
      get_uniform_value_int ⟨id, id, id, id⟩ 0xb000 (matrixVar .t_int 5 2 2 1)
          (2 * 2) 0
          (set_uniform_value_int ⟨id, id, id, id⟩ 0xb000 (matrixVar .t_int 5 2 2 1)
            (fun i => i + 7) (2 * 2) 0 (fun _ => 0)) (fun _ => 0) (r * 2 + c) =
        (fun i => i + 7) (r * 2 + c)) ∧
    (∀ r, r < 2 → ∀ c, c < 2 →
      get_uniform_value_uint ⟨id, id, id, id⟩ 0xb000 (matrixVar .t_uint 5 2 2 1)
          (2 * 2) 0
          (set_uniform_value_uint ⟨id, id, id, id⟩ 0xb000 (matrixVar .t_uint 5 2 2 1)
            (fun i => i + 7) (2 * 2) 0 (fun _ => 0)) (fun _ => 0) (r * 2 + c) =
        (fun i => i + 7) (r * 2 + c)) ∧
    (∀ r, r < 2 → ∀ c, c < 2 →
      get_uniform_value_float ⟨id, id, id, id⟩ 0xb000 (matrixVar .t_float 5 2 2 1)
          (2 * 2) 0
          (set_uniform_value_float ⟨id, id, id, id⟩ 0xb000 (matrixVar .t_float 5 2 2 1)
            (fun i => i + 7) (2 * 2) 0 (fun _ => 0)) (fun _ => 0) (r * 2 + c) =
        (fun i => i + 7) (r * 2 + c)) ∧
    (∀ r, r < 2 → ∀ c, c < 2 →
      (get_uniform_value_bool (matrixVar .t_bool 5 2 2 1) (2 * 2) 0
          (set_uniform_value_bool 0xb000 (matrixVar .t_bool 5 2 2 1)
            [true, false, true, true] (2 * 2) 0 (fun _ => 0)) (fun _ => 0)).getD
          (r * 2 + c) false =
        [true, false, true, true].getD (r * 2 + c) false)) :=
  ⟨⟨by decide, by decide, by decide, by decide⟩,
    c2_uniform_matrix_roundtrip 0xb000 5 2 2 1 0 ⟨id, id, id, id⟩
      (fun i => i + 7) (fun _ => 0) (fun _ => 0) [true, false, true, true]
      (by decide) (by decide) (by decide) (by decide)⟩

/-! ## Claim C4 -/

/-- Reading with `getD` after `set` at the same (in-range) index. -/
theorem getD_set_eq {α : Type} [Inhabited α] (l : List α) (i : Nat) (a : α)
    (h : i < l.length) : (l.set i a).getD i default = a := by
  rw [List.getD_eq_getElem?_getD, List.getElem?_set_self (by simpa using h)]
  rfl

/-- Reading with `getD` after `set` at a different index. -/
theorem getD_set_ne {α : Type} [Inhabited α] (l : List α) (i j : Nat) (a : α)
    (h : i ≠ j) : (l.set i a).getD j default = l.getD j default := by
  rw [List.getD_eq_getElem?_getD, List.getElem?_set_ne h,
    ← List.getD_eq_getElem?_getD]

/-- Reading with `getD` through `map` at an in-range index. -/
theorem getD_map_lt {α β : Type} [Inhabited α] [Inhabited β] (f : α → β)
    (l : List α) (k : Nat) (h : k < l.length) :
    (l.map f).getD k default = f (l.getD k default) := by
  rw [List.getD_eq_getElem?_getD, List.getElem?_map, List.getElem?_eq_getElem h,
    List.getD_eq_getElem?_getD, List.getElem?_eq_getElem h]
  rfl

/-- Calling `disable_technique` never touches any effect's `compiled` flag. -/
theorem disable_technique_compiled (effects : List Effect) (tech : Technique)
    (jdx : Nat) :
    ((disable_technique effects tech).1.getD jdx default).compiled =
      (effects.getD jdx default).compiled := by
  simp only [disable_technique]
  by_cases he : tech.enabled = true
  · simp only [he, if_true]
    by_cases hj : tech.effect_index = jdx
    · subst hj
      by_cases hlt : tech.effect_index < effects.length
      · rw [getD_set_eq _ _ _ hlt]
      · rw [List.set_eq_of_length_le (by omega)]
    · rw [getD_set_ne _ _ _ _ hj]
  · have he' : tech.enabled = false := by
      revert he
      cases tech.enabled <;> simp
    simp [he']

/-- Calling `disable_technique` leaves every effect other than the technique's owner
unchanged. -/
theorem disable_technique_other (effects : List Effect) (tech : Technique)
    (jdx : Nat) (h : jdx ≠ tech.effect_index) :
    (disable_technique effects tech).1.getD jdx default =
      effects.getD jdx default := by
  simp only [disable_technique]
  by_cases he : tech.enabled = true
  · simp only [he, if_true]
    rw [getD_set_ne _ _ _ _ (fun hc => h hc.symm)]
  · have he' : tech.enabled = false := by
      revert he
      cases tech.enabled <;> simp
    simp [he']

/-- Calling `disable_techniques` leaves every effect other than the failed one
unchanged. -/
theorem disable_techniques_other (ei : Nat) :
    ∀ (effects : List Effect) (ts : List Technique) (jdx : Nat), jdx ≠ ei →
      (disable_techniques ei effects ts).1.getD jdx default =
        effects.getD jdx default
  | _effects, [], _jdx, _h => rfl
  | effects, t :: ts, jdx, h => by
      simp only [disable_techniques]
      by_cases hm : (t.effect_index == ei) = true
      · simp only [hm, if_true]
        rw [disable_techniques_other ei _ ts jdx h]
        exact disable_technique_other effects t jdx
          (by rw [beq_iff_eq] at hm; rw [hm]; exact h)
      · have hm' : (t.effect_index == ei) = false := by
          revert hm
          cases t.effect_index == ei <;> simp
        simp only [hm', Bool.false_eq_true, if_false]
        exact disable_techniques_other ei effects ts jdx h
-- fuel
termination_by _ ts _ _ => ts.length

/-- Calling `disable_techniques` never touches any effect's `compiled` flag. -/
theorem disable_techniques_compiled (ei : Nat) :
    ∀ (effects : List Effect) (ts : List Technique) (jdx : Nat),
      ((disable_techniques ei effects ts).1.getD jdx default).compiled =
        (effects.getD jdx default).compiled
  | _effects, [], _jdx => rfl
  | effects, t :: ts, jdx => by
      simp only [disable_techniques]
      by_cases hm : (t.effect_index == ei) = true
      · simp only [hm, if_true]
        rw [disable_techniques_compiled ei _ ts jdx]
        exact disable_technique_compiled effects t jdx
      · have hm' : (t.effect_index == ei) = false := by
          revert hm
          cases t.effect_index == ei <;> simp
        simp only [hm', Bool.false_eq_true, if_false]
        exact disable_techniques_compiled ei effects ts jdx
termination_by _ ts _ => ts.length

/-- The technique list produced by `disable_techniques`: same length, every
technique of the failed effect disabled, every other technique untouched. -/
theorem disable_techniques_techs (ei : Nat) :
    ∀ (effects : List Effect) (ts : List Technique),
      ((disable_techniques ei effects ts).2.length = ts.length) ∧
      (∀ t ∈ (disable_techniques ei effects ts).2,
        t.effect_index = ei → t.enabled = false) ∧
      (∀ k, (ts.getD k default).effect_index ≠ ei →
        (disable_techniques ei effects ts).2.getD k default = ts.getD k default)
  | _effects, [] => ⟨rfl, fun t ht => absurd ht (List.not_mem_nil t), fun _ _ => rfl⟩
  | effects, t :: ts => by
      simp only [disable_techniques]
      by_cases hm : (t.effect_index == ei) = true
      · simp only [hm, if_true]
        obtain ⟨ihlen, ihmem, ihidx⟩ :=
          disable_techniques_techs ei (disable_technique effects t).1 ts
        refine ⟨by simpa using ihlen, ?_, ?_⟩
        · intro u hu hue
          rcases List.mem_cons.mp hu with rfl | hu'
          · rfl
          · exact ihmem u hu' hue
        · intro k hk
          cases k with
          | zero =>
              rw [beq_iff_eq] at hm
              rw [List.getD_cons_zero] at hk
              exact absurd hm hk
          | succ k =>
              rw [List.getD_cons_succ] at hk ⊢
              rw [List.getD_cons_succ]
              exact ihidx k hk
      · have hm' : (t.effect_index == ei) = false := by
          revert hm
          cases t.effect_index == ei <;> simp
        simp only [hm', Bool.false_eq_true, if_false]
        obtain ⟨ihlen, ihmem, ihidx⟩ := disable_techniques_techs ei effects ts
        refine ⟨by simpa using ihlen, ?_, ?_⟩
        · intro u hu hue
          rcases List.mem_cons.mp hu with rfl | hu'
          · simp [hue] at hm'
          · exact ihmem u hu' hue
        · intro k hk
          cases k with
          | zero => rfl
          | succ k =>
              rw [List.getD_cons_succ] at hk ⊢
              rw [List.getD_cons_succ]
              exact ihidx k hk
termination_by _ ts => ts.length

/-- The texture-creation loop preserves the registry's length. -/
theorem create_effect_textures_length (texOk : Texture → Bool) (ei : Nat) :
    ∀ ts : List Texture, (create_effect_textures texOk ei ts).1.length = ts.length
  | [] => rfl
  | t :: ts => by
      simp only [create_effect_textures]
      by_cases h1 : (t.resource || (t.effect_index != ei && t.shared.length ≤ 1)) = true
      · simp [h1, create_effect_textures_length texOk ei ts]
      · have h1' := Bool.not_eq_true _ ▸ h1
        by_cases h2 : texOk t = true
        · simp [h1, h2, create_effect_textures_length texOk ei ts]
        · simp [h1, h2]

/-- The texture-creation loop changes a registry entry at most by creating its
resource. -/
theorem create_effect_textures_getD (texOk : Texture → Bool) (ei : Nat) :
    ∀ (ts : List Texture) (k : Nat),
      (create_effect_textures texOk ei ts).1.getD k default = ts.getD k default ∨
      (create_effect_textures texOk ei ts).1.getD k default =
        { ts.getD k default with resource := true }
  | [], _k => Or.inl rfl
  | t :: ts, k => by
      simp only [create_effect_textures]
      by_cases h1 : (t.resource || (t.effect_index != ei && t.shared.length ≤ 1)) = true
      · simp only [h1, if_true]
        cases k with
        | zero => exact Or.inl rfl
        | succ k =>
            rw [List.getD_cons_succ, List.getD_cons_succ]
            exact create_effect_textures_getD texOk ei ts k
      · have h1' : (t.resource || (t.effect_index != ei && t.shared.length ≤ 1)) = false := by
          revert h1
          cases t.resource || (t.effect_index != ei && t.shared.length ≤ 1) <;> simp
        by_cases h2 : texOk t = true
        · simp only [h1', Bool.false_eq_true, if_false, h2, if_true]
          cases k with
          | zero => exact Or.inr rfl
          | succ k =>
              rw [List.getD_cons_succ, List.getD_cons_succ]
              exact create_effect_textures_getD texOk ei ts k
        · have h2' : texOk t = false := by
            revert h2
            cases texOk t <;> simp
          simp only [h1', Bool.false_eq_true, if_false, h2', if_false]
          exact Or.inl (by trivial)

/-- A texture that belongs to another effect and is not shared is skipped by
the creation loop. -/
theorem create_effect_textures_skip (texOk : Texture → Bool) (ei : Nat) :
    ∀ (ts : List Texture) (k : Nat),
      (ts.getD k default).effect_index ≠ ei →
      (ts.getD k default).shared.length ≤ 1 →
      (create_effect_textures texOk ei ts).1.getD k default = ts.getD k default
  | [], _k, _h1, _h2 => rfl
  | t :: ts, k, h1, h2 => by
      simp only [create_effect_textures]
      by_cases hc : (t.resource || (t.effect_index != ei && t.shared.length ≤ 1)) = true
      · simp only [hc, if_true]
        cases k with
        | zero => rfl
        | succ k =>
            rw [List.getD_cons_succ] at h1 h2
            rw [List.getD_cons_succ, List.getD_cons_succ]
            exact create_effect_textures_skip texOk ei ts k h1 h2
      · cases k with
        | zero =>
            rw [List.getD_cons_zero] at h1 h2
            exact absurd (by simp [h1, h2]) hc
        | succ k =>
            have hc' : (t.resource || (t.effect_index != ei && t.shared.length ≤ 1)) = false := by
              revert hc
              cases t.resource || (t.effect_index != ei && t.shared.length ≤ 1) <;> simp
            rw [List.getD_cons_succ] at h1 h2
            by_cases h2ok : texOk t = true
            · simp only [hc', Bool.false_eq_true, if_false, h2ok, if_true]
              rw [List.getD_cons_succ, List.getD_cons_succ]
              exact create_effect_textures_skip texOk ei ts k h1 h2
            · have h2ok' : texOk t = false := by
                revert h2ok
                cases texOk t <;> simp
              simp only [hc', Bool.false_eq_true, if_false, h2ok', if_false]

/-- C4 counterexample: a texture owned by effect 1 and shared with effect 0
has no resource yet; initializing effect 0 from the compile queue creates it
(creation succeeds) before `init_effect` fails.  Effect 0 ends not compiled —
initialization did fail — yet the texture, part of another effect's state and
shared, has changed (its resource now exists), contradicting the claim that
every other effect's state is left unchanged. -/
theorem c4_shared_texture_created_counterexample :
    ((update_compile_queue_step (fun _ => true) (fun _ => false)
        ⟨[⟨true, [], 0, []⟩, ⟨true, [], 0, []⟩],
         [⟨"SharedTex", "", 1, 4, 4, 1, 0, false, "", true, true, [1, 0], false⟩],
         [], [0], true, true⟩).effects.getD 0 default).compiled = false ∧
    1 < ((⟨"SharedTex", "", 1, 4, 4, 1, 0, false, "", true, true, [1, 0], false⟩ : Texture)).shared.length ∧
    (update_compile_queue_step (fun _ => true) (fun _ => false)
        ⟨[⟨true, [], 0, []⟩, ⟨true, [], 0, []⟩],
         [⟨"SharedTex", "", 1, 4, 4, 1, 0, false, "", true, true, [1, 0], false⟩],
         [], [0], true, true⟩).textures.getD 0 default ≠
      (⟨"SharedTex", "", 1, 4, 4, 1, 0, false, "", true, true, [1, 0], false⟩ : Texture) ∧
    (update_compile_queue_step (fun _ => true) (fun _ => false)
        ⟨[⟨true, [], 0, []⟩, ⟨true, [], 0, []⟩],
         [⟨"SharedTex", "", 1, 4, 4, 1, 0, false, "", true, true, [1, 0], false⟩],
         [], [0], true, true⟩).textures.getD 0 default =
      ⟨"SharedTex", "", 1, 4, 4, 1, 0, false, "", true, true, [1, 0], true⟩ := by
  decide

/-- Reading with `getD` past the end of the list gives the default. -/
theorem getD_ge {α : Type} [Inhabited α] (l : List α) (k : Nat)
    (h : l.length ≤ k) : l.getD k default = default := by
  rw [List.getD_eq_getElem?_getD, List.getElem?_eq_none h]
  rfl

/-- The destroy filter of the failure path skips shared textures. -/
theorem destroy_cond_false_of_shared (ei : Nat) (t : Texture)
    (h : 1 < t.shared.length) :
    (t.effect_index == ei && decide (t.shared.length ≤ 1)) = false := by
  have hd : decide (t.shared.length ≤ 1) = false := decide_eq_false (by omega)
  rw [hd, Bool.and_false]

/-- The destroy filter of the failure path skips other effects' textures. -/
theorem destroy_cond_false_of_other (ei : Nat) (t : Texture)
    (h : t.effect_index ≠ ei) :
    (t.effect_index == ei && decide (t.shared.length ≤ 1)) = false := by
  have hb : (t.effect_index == ei) = false := by simp [h]
  rw [hb, Bool.false_and]

/-- C4 (amended): when GPU-object initialization of the effect popped from the
compile queue fails (texture creation failure or `init_effect` failure), that
effect's `compiled` flag becomes false and all of its techniques are disabled;
every other effect is unchanged, every technique of every other effect is
unchanged, no texture shared between effects is destroyed, and textures of
other effects that are not shared are completely untouched — however a texture
(including a shared one, possibly owned by another effect) that had no
resource yet may have been created during the attempted initialization. -/
theorem c4_init_failure_isolated (texOk : Texture → Bool) (effOk : Nat → Bool)
    (s : RState) (q : List Nat) (ei : Nat)
    (hq : s.compile_queue = q ++ [ei])
    (hei : ei < s.effects.length)
    (hfail : (create_effect_textures texOk ei s.textures).2.isSome = true ∨
      effOk ei = false) :
    ((update_compile_queue_step texOk effOk s).effects.getD ei default).compiled
      = false ∧
    (∀ t ∈ (update_compile_queue_step texOk effOk s).techniques,
      t.effect_index = ei → t.enabled = false) ∧
    (∀ jdx, jdx ≠ ei →
      (update_compile_queue_step texOk effOk s).effects.getD jdx default =
        s.effects.getD jdx default) ∧
    ((update_compile_queue_step texOk effOk s).techniques.length =
      s.techniques.length) ∧
    (∀ k, (s.techniques.getD k default).effect_index ≠ ei →
      (update_compile_queue_step texOk effOk s).techniques.getD k default =
        s.techniques.getD k default) ∧
    (∀ k, 1 < (s.textures.getD k default).shared.length →
      ((update_compile_queue_step texOk effOk s).textures.getD k default =
        s.textures.getD k default ∨
       (update_compile_queue_step texOk effOk s).textures.getD k default =
        { s.textures.getD k default with resource := true })) ∧
    (∀ k, (s.textures.getD k default).effect_index ≠ ei →
      (s.textures.getD k default).shared.length ≤ 1 →
      (update_compile_queue_step texOk effOk s).textures.getD k default =
        s.textures.getD k default) := by
  have hlast : s.compile_queue.getLast? = some ei := by
    rw [hq]
    exact List.getLast?_concat _
  have hstep : ∃ er, update_compile_queue_step texOk effOk s =
      { effects := (disable_techniques ei (s.effects.set ei
          { s.effects.getD ei default with compiled := false, errors := er })
          s.techniques).1
        textures := destroy_effect_textures ei
          (create_effect_textures texOk ei s.textures).1
        techniques := (disable_techniques ei (s.effects.set ei
          { s.effects.getD ei default with compiled := false, errors := er })
          s.techniques).2
        compile_queue := s.compile_queue.dropLast
        last_reload_successfull := false
        textures_loaded := false } := by
    cases hcr : (create_effect_textures texOk ei s.textures).2 with
    | some name =>
        refine ⟨dedup_error_lines ((s.effects.getD ei default).errors ++
          ["Failed to create texture " ++ name]), ?_⟩
        simp [update_compile_queue_step, hlast, hcr]
    | none =>
        have hf : effOk ei = false := by
          rcases hfail with hf | hf
          · rw [hcr] at hf
            simp at hf
          · exact hf
        refine ⟨dedup_error_lines (s.effects.getD ei default).errors, ?_⟩
        cases hcpl : (s.effects.getD ei default).compiled with
        | true => simp [update_compile_queue_step, hlast, hcr, hcpl, hf]
        | false => simp [update_compile_queue_step, hlast, hcr, hcpl, hf]
  obtain ⟨er, hstep⟩ := hstep
  rw [hstep]
  refine ⟨?_, ?_, ?_, ?_, ?_, ?_, ?_⟩
  · rw [disable_techniques_compiled, getD_set_eq _ _ _ hei]
  · exact (disable_techniques_techs ei _ s.techniques).2.1
  · intro jdx hjdx
    rw [disable_techniques_other ei _ s.techniques jdx hjdx]
    rw [getD_set_ne _ _ _ _ (fun h => hjdx h.symm)]
  · exact (disable_techniques_techs ei _ s.techniques).1
  · exact (disable_techniques_techs ei _ s.techniques).2.2
  · intro k hk1
    by_cases hk : k < s.textures.length
    · have hklen : k < (create_effect_textures texOk ei s.textures).1.length := by
        rw [create_effect_textures_length]
        exact hk
      show (destroy_effect_textures ei
        (create_effect_textures texOk ei s.textures).1).getD k default = _ ∨ _
      rw [destroy_effect_textures, getD_map_lt _ _ _ hklen]
      rcases create_effect_textures_getD texOk ei s.textures k with hA | hA
      · rw [hA]
        left
        have hcf := destroy_cond_false_of_shared ei (s.textures.getD k default) hk1
        simp only [hcf, Bool.false_eq_true, if_false]
      · rw [hA]
        right
        have hcf := destroy_cond_false_of_shared ei
          { s.textures.getD k default with resource := true } hk1
        simp only [hcf, Bool.false_eq_true, if_false]
    · have hk' : s.textures.length ≤ k := by omega
      have hk2 : (destroy_effect_textures ei
          (create_effect_textures texOk ei s.textures).1).length ≤ k := by
        rw [destroy_effect_textures, List.length_map,
          create_effect_textures_length]
        exact hk'
      left
      rw [getD_ge _ _ hk2, getD_ge _ _ hk']
  · intro k hk1 hk2
    by_cases hk : k < s.textures.length
    · have hklen : k < (create_effect_textures texOk ei s.textures).1.length := by
        rw [create_effect_textures_length]
        exact hk
      rw [destroy_effect_textures, getD_map_lt _ _ _ hklen]
      rw [create_effect_textures_skip texOk ei s.textures k hk1 hk2]
      have hcf := destroy_cond_false_of_other ei (s.textures.getD k default) hk1
      simp only [hcf, Bool.false_eq_true, if_false]
    · have hk' : s.textures.length ≤ k := by omega
      have hk3 : (destroy_effect_textures ei
          (create_effect_textures texOk ei s.textures).1).length ≤ k := by
        rw [destroy_effect_textures, List.length_map,
          create_effect_textures_length]
        exact hk'
      rw [getD_ge _ _ hk3, getD_ge _ _ hk']

/-- C4 witness: two compiled effects, one enabled technique of effect 0, an
empty texture registry; `init_effect` fails for effect 0. -/
theorem c4_init_failure_isolated_witness :
    (([0] : List Nat) = [] ++ [0]) ∧ (0 : Nat) < 2 ∧
    (((update_compile_queue_step (fun _ => true) (fun _ => false)
        ⟨[⟨true, [], 1, []⟩, ⟨true, [], 0, []⟩], [],
         [⟨0, true, 5, 0, [], 0, 0⟩], [0], true, true⟩).effects.getD 0
          default).compiled = false ∧
     (∀ t ∈ (update_compile_queue_step (fun _ => true) (fun _ => false)
        ⟨[⟨true, [], 1, []⟩, ⟨true, [], 0, []⟩], [],
         [⟨0, true, 5, 0, [], 0, 0⟩], [0], true, true⟩).techniques,
       t.effect_index = 0 → t.enabled = false) ∧
     (∀ jdx, jdx ≠ 0 →
       (update_compile_queue_step (fun _ => true) (fun _ => false)
        ⟨[⟨true, [], 1, []⟩, ⟨true, [], 0, []⟩], [],
         [⟨0, true, 5, 0, [], 0, 0⟩], [0], true, true⟩).effects.getD jdx
           default =
         (⟨[⟨true, [], 1, []⟩, ⟨true, [], 0, []⟩], [],
          [⟨0, true, 5, 0, [], 0, 0⟩], [0], true, true⟩ : RState).effects.getD
           jdx default)) := by
  refine ⟨rfl, by decide, ?_⟩
  have h := c4_init_failure_isolated (fun _ => true) (fun _ => false)
    ⟨[⟨true, [], 1, []⟩, ⟨true, [], 0, []⟩], [],
     [⟨0, true, 5, 0, [], 0, 0⟩], [0], true, true⟩ [] 0 rfl (by decide)
    (Or.inr rfl)
  exact ⟨h.1, h.2.1, h.2.2.1⟩

/-- C10 witness: a concrete not-compiled effect, and the enqueue bound at a
concrete state. -/
theorem c10_enable_technique_noop_witness :
    ((([⟨false, [], 0, []⟩] : List Effect).getD 0 default).compiled = false →
      enable_technique [⟨false, [], 0, []⟩] [4] ⟨0, false, 0, 0, [], 0, 0⟩ =
        ([⟨false, [], 0, []⟩], [4], ⟨0, false, 0, 0, [], 0, 0⟩)) ∧
    (enable_technique [⟨false, [], 0, []⟩] [4] ⟨0, false, 0, 0, [], 0, 0⟩).2.1.count 0 ≤
      max 1 (([4] : List Nat).count 0) :=
  c10_enable_technique_noop [⟨false, [], 0, []⟩] [4] ⟨0, false, 0, 0, [], 0, 0⟩

end Reshade
